import Mathlib

/-!
# Verification of the vanilla-Rust TOML (de)serialization core

Shallow embedding of `src/u128_and_arrays/` of
`lineality/serialization_deserialization_in_vanilla_rust`.

Modelling conventions:
* Rust `String`/`&str` values are embedded as `List Char`; `cl` converts a
  Lean string literal to its character list.
* `toml::Value` is embedded as the inductive `Toml`; constructors the code
  never pattern-matches (Float, Boolean, Datetime) are collapsed into
  `Toml.other`.  `toml::map::Map` is an association list looked up by key.
* `u128` is embedded as `Nat` (parsing enforces the `2 ^ 128` bound exactly
  where the Rust checked arithmetic does); `i64` as `Int` with the source's
  explicit `0 ≤ i ∧ i ≤ i64::MAX` comparisons; `u64` results as `Nat`.
* The three near-identical Rust error enums (`ThisProjectError` in
  `deserialize_one_file_main.rs` / `serialize_to_toml_main.rs`, `UmaError`
  in `deserialization_main.rs`, `YOURPROGRAMError` in `u128_array_only.rs`)
  have the same three variants and are embedded as the single inductive
  `ThisProjectError` (`tomlError` stands for both `TomlError` and
  `TomlVanillaDeserialStrError`, whose payloads are the same message
  strings).  `std::io::Error` payloads are abstracted to their message.
* `std` library functions the code calls (`u128::from_str_radix`,
  `str::trim_start_matches`, `char::to_digit`, the `Ipv4Addr` `FromStr`
  parser and `Display` printer) are embedded from their documented
  behaviour; the `Ipv6Addr` parser/printer is never needed by a claim and
  is kept as an explicit function parameter (`parse6` / `disp6`) at each
  call site of `s.parse::<Ipv6Addr>()` / `format!` on an address.
* File-system effects (`fs::read_dir`, `fs::read_to_string`) are embedded
  by passing the outcome of each call as data (`Except` values).
-/

/-- Characters of a string literal (Rust string literals become `List Char`). -/
def cl (s : String) : List Char := s.data

/-- Rust `std::num::IntErrorKind`, the payload of `ParseIntError`
(only the kinds reachable from `u128::from_str_radix` are needed). -/
inductive IntErrorKind where
  | empty
  | invalidDigit
  | posOverflow
deriving DecidableEq, Repr

/-- The error enum shared (up to naming) by all five source files:
`IoError(std::io::Error)`, `TomlError(String)` (named
`TomlVanillaDeserialStrError` in `deserialize_one_file_main.rs`),
`ParseIntError(std::num::ParseIntError)`. -/
inductive ThisProjectError where
  | ioError : List Char → ThisProjectError
  | tomlError : List Char → ThisProjectError
  | parseIntError : IntErrorKind → ThisProjectError
deriving DecidableEq, Repr

/-- Rust `std::net::Ipv4Addr`: four octets (the parser below only ever
produces values `< 256`, mirroring the `u8` fields). -/
structure Ipv4Addr where
  o0 : Nat
  o1 : Nat
  o2 : Nat
  o3 : Nat
deriving DecidableEq, Repr

/-- Rust `std::net::Ipv6Addr`: eight 16-bit segments.  No claim depends on
the textual IPv6 parser/printer, so only the carrier type is needed. -/
structure Ipv6Addr where
  s0 : Nat
  s1 : Nat
  s2 : Nat
  s3 : Nat
  s4 : Nat
  s5 : Nat
  s6 : Nat
  s7 : Nat
deriving DecidableEq, Repr

/-- `toml::Value`.  `other` stands for the constructors (Float, Boolean,
Datetime) that none of the source's patterns match. -/
inductive Toml where
  | str : List Char → Toml
  | int : Int → Toml
  | arr : List Toml → Toml
  | table : List (List Char × Toml) → Toml
  | other : Toml

/-- A TOML table: `toml::map::Map<String, Value>` as an association list. -/
abbrev TomlTable := List (List Char × Toml)

/-- `toml::map::Map::get`: lookup by key. -/
def tget (t : TomlTable) (key : List Char) : Option Toml :=
  (t.find? (fun p => p.1 = key)).map (fun p => p.2)

/-- The struct `CollaboratorTomlData` (identical in
`deserialize_one_file_main.rs`, `deserialization_from_toml_file_main.rs`,
`deserialization_main.rs`, `serialize_to_toml_main.rs`). -/
structure CollaboratorTomlData where
  user_name : List Char
  user_salt_list : List Nat
  ipv4_addresses : Option (List Ipv4Addr)
  ipv6_addresses : Option (List Ipv6Addr)
  gpg_key_public : List Char
  sync_interval : Nat
  updated_at_timestamp : Nat
deriving DecidableEq, Repr

/-- `char::to_digit(radix)`. -/
def char_to_digit (c : Char) (radix : Nat) : Option Nat :=
  let d? : Option Nat :=
    if '0' ≤ c ∧ c ≤ '9' then some (c.toNat - '0'.toNat)
    else if 'a' ≤ c ∧ c ≤ 'z' then some (c.toNat - 'a'.toNat + 10)
    else if 'A' ≤ c ∧ c ≤ 'Z' then some (c.toNat - 'A'.toNat + 10)
    else none
  match d? with
  | some d => if d < radix then some d else none
  | none => none

/-- One more than `u128::MAX`. -/
def u128_BOUND : Nat := 2 ^ 128

/-- Digit-accumulation loop of `u128::from_str_radix(src, 16)`: each step
performs the checked multiply and checked add of the Rust implementation,
failing with `PosOverflow` when the `u128` range is exceeded and with
`InvalidDigit` on a non-hex character. -/
def from_str_radix_16_go : List Char → Nat → Except IntErrorKind Nat
  | [], acc => .ok acc
  | c :: rest, acc =>
    match char_to_digit c 16 with
    | none => .error .invalidDigit
    | some d =>
      if acc * 16 < u128_BOUND then
        if acc * 16 + d < u128_BOUND then
          from_str_radix_16_go rest (acc * 16 + d)
        else .error .posOverflow
      else .error .posOverflow

/-- `u128::from_str_radix(src, 16)`: empty input is `Empty`; a lone sign is
`InvalidDigit`; a leading `+` is stripped (a `-` is not a digit for an
unsigned target, hence `InvalidDigit`); then the digit loop runs. -/
def from_str_radix_16_u128 (s : List Char) : Except IntErrorKind Nat :=
  match s with
  | [] => .error .empty
  | ['+'] => .error .invalidDigit
  | ['-'] => .error .invalidDigit
  | '+' :: rest => from_str_radix_16_go rest 0
  | rest => from_str_radix_16_go rest 0

/-- `s.trim_start_matches("0x")`: repeatedly removes the exact (lowercase)
prefix `0x`. -/
def trim_start_matches_0x : List Char → List Char
  | '0' :: 'x' :: rest => trim_start_matches_0x rest
  | s => s

/-- The salt-element closure shared by `read_one_collaborator_setup_toml`
and both batch decoders: a `String` node is trimmed of leading `0x` and
parsed base-16 into `u128` (`ParseIntError` on failure); any other node is
the descriptive `TomlError`. -/
def parse_salt (v : Toml) : Except ThisProjectError Nat :=
  match v with
  | .str s =>
    match from_str_radix_16_u128 (trim_start_matches_0x s) with
    | .ok n => .ok n
    | .error e => .error (.parseIntError e)
  | _ => .error (.tomlError (cl "Invalid salt format: Expected string"))

/-- `Iterator::collect::<Result<Vec<_>, _>>()`: left-to-right, first error
wins, order preserved. -/
def collect_results (f : α → Except ThisProjectError β) :
    List α → Except ThisProjectError (List β)
  | [] => .ok []
  | x :: xs =>
    match f x with
    | .error e => .error e
    | .ok b =>
      match collect_results f xs with
      | .error e => .error e
      | .ok bs => .ok (b :: bs)

/-- Digit loop of the std IPv4 parser's `read_number::<u8>(10, Some(3))`:
reads decimal digits with checked `u8` arithmetic (failing outright past
255) and fails when a fourth digit appears; stops at the first non-digit,
returning the value, the digit count and the rest of the input. -/
def read_digits_u8 : List Char → Nat → Nat → Option (Nat × Nat × List Char)
  | [], acc, count => some (acc, count, [])
  | c :: rest, acc, count =>
    match char_to_digit c 10 with
    | none => some (acc, count, c :: rest)
    | some d =>
      if acc * 10 ≤ 255 then
        if acc * 10 + d ≤ 255 then
          if count + 1 > 3 then none
          else read_digits_u8 rest (acc * 10 + d) (count + 1)
        else none
      else none

/-- std `read_number::<u8>`: at least one digit, at most three, value ≤ 255,
and no leading zero unless the number is exactly `0`. -/
def read_number_u8 (s : List Char) : Option (Nat × List Char) :=
  let has_leading_zero := match s with | '0' :: _ => true | _ => false
  match read_digits_u8 s 0 0 with
  | none => none
  | some (v, count, rest) =>
    if count = 0 then none
    else if has_leading_zero = true ∧ count > 1 then none
    else some (v, rest)

/-- Consume a literal `.`. -/
def expect_dot : List Char → Option (List Char)
  | '.' :: rest => some rest
  | _ => none

/-- `s.parse::<Ipv4Addr>()` (std `FromStr`): four dot-separated octets and
nothing else. -/
def parse_ipv4 (s : List Char) : Option Ipv4Addr :=
  match read_number_u8 s with
  | none => none
  | some (a, s1) =>
    match expect_dot s1 with
    | none => none
    | some s2 =>
      match read_number_u8 s2 with
      | none => none
      | some (b, s3) =>
        match expect_dot s3 with
        | none => none
        | some s4 =>
          match read_number_u8 s4 with
          | none => none
          | some (c, s5) =>
            match expect_dot s5 with
            | none => none
            | some s6 =>
              match read_number_u8 s6 with
              | none => none
              | some (d, s7) =>
                if s7 = [] then some ⟨a, b, c, d⟩ else none

/-- `i64::MAX`. -/
def i64_MAX : Int := 9223372036854775807

/-- Inline `user_name` extraction shared verbatim by
`read_one_collaborator_setup_toml` and both batch decoders:
`if let Some(Value::String(s)) = table.get("user_name")`. -/
def extract_user_name (table : TomlTable) : Except ThisProjectError (List Char) :=
  match tget table (cl "user_name") with
  | some (.str s) => .ok s
  | _ => .error (.tomlError (cl "Missing user_name"))

/-- Inline `user_salt_list` extraction shared verbatim by
`read_one_collaborator_setup_toml` and both batch decoders: requires an
`Array` node and collects `parse_salt` over it, first error winning. -/
def extract_user_salt_list (table : TomlTable) : Except ThisProjectError (List Nat) :=
  match tget table (cl "user_salt_list") with
  | some (.arr arr) => collect_results parse_salt arr
  | _ => .error (.tomlError (cl "Missing user_salt_list"))

/-- Inline `gpg_key_public` extraction shared verbatim by
`read_one_collaborator_setup_toml` and both batch decoders. -/
def extract_gpg_key_public (table : TomlTable) : Except ThisProjectError (List Char) :=
  match tget table (cl "gpg_key_public") with
  | some (.str s) => .ok s
  | _ => .error (.tomlError (cl "Missing or invalid gpg_key_public"))

/-- Loop body of `extract_ipv4_addresses` / `extract_ipv6_addresses` in
`deserialize_one_file_main.rs` (fail-fast): pushes each parsed address and
returns `Err` on the first non-string or unparsable element.  The std
address parser is the parameter `parseA`; an `AddrParseError` displays as
`invalid IP address syntax`. -/
def addr_ff_loop (parseA : List Char → Option α) (key : List Char) :
    List Toml → Except ThisProjectError (List α)
  | [] => .ok []
  | v :: rest =>
    match v with
    | .str s =>
      match parseA s with
      | some ip =>
        match addr_ff_loop parseA key rest with
        | .error e => .error e
        | .ok ips => .ok (ip :: ips)
      | none =>
        .error (.tomlError (cl "Invalid " ++ key ++
          cl " format: invalid IP address syntax. Skipping this address."))
    | _ =>
      .error (.tomlError (cl "Invalid " ++ key ++
        cl " format: Expected string. Skipping this address."))

/-- `extract_ipv4_addresses` / `extract_ipv6_addresses` of
`deserialize_one_file_main.rs` (one definition, the address family's std
parser abstracted as `parseA`): a present `Array` node is folded by
`addr_ff_loop`; an empty result collapses to `None`; an absent key or a
present non-`Array` node yields `Ok(None)`. -/
def extract_addresses_failfast (parseA : List Char → Option α)
    (table : TomlTable) (key : List Char) :
    Except ThisProjectError (Option (List α)) :=
  match tget table key with
  | some (.arr arr) =>
    match addr_ff_loop parseA key arr with
    | .error e => .error e
    | .ok addresses => if addresses.isEmpty then .ok none else .ok (some addresses)
  | _ => .ok none

/-- Loop body of `extract_ipv4_addresses` / `extract_ipv6_addresses` in
`deserialization_from_toml_file_main.rs` (collect-and-continue): a parsed
address is pushed; a non-string or unparsable element only pushes a
descriptive error.  Returns the addresses and the errors this call adds,
each in element order. -/
def addr_collect_loop (parseA : List Char → Option α) (key : List Char) :
    List Toml → List α × List ThisProjectError
  | [] => ([], [])
  | v :: rest =>
    let (ips, errs) := addr_collect_loop parseA key rest
    match v with
    | .str s =>
      match parseA s with
      | some ip => (ip :: ips, errs)
      | none =>
        (ips, .tomlError (cl "Invalid " ++ key ++
          cl " format: invalid IP address syntax. Skipping this address.") :: errs)
    | _ =>
      (ips, .tomlError (cl "Invalid " ++ key ++
        cl " format: Expected string. Skipping this address.") :: errs)

/-- `extract_ipv4_addresses` / `extract_ipv6_addresses` of
`deserialization_from_toml_file_main.rs`: the `&mut Vec` error sink is
passed as state.  All control paths return `Ok`; an empty address list
collapses to `None`; an absent key or non-`Array` node is `Ok(None)`. -/
def extract_addresses_collect (parseA : List Char → Option α)
    (table : TomlTable) (key : List Char) (errors : List ThisProjectError) :
    Except ThisProjectError (Option (List α)) × List ThisProjectError :=
  match tget table key with
  | some (.arr arr) =>
    let (addresses, errs) := addr_collect_loop parseA key arr
    (if addresses.isEmpty then .ok none else .ok (some addresses), errors ++ errs)
  | _ => (.ok none, errors)

/-- `extract_ipv4_addresses` / `extract_ipv6_addresses` of
`deserialization_main.rs`: `map` + `collect::<Result<Vec<_>, _>>()`, so the
first non-string or unparsable element is the call's error, and a present
`Array` always yields `Ok(Some(...))` — even when empty.  The `&mut Vec`
error sink in the signature is never written. -/
def extract_addresses_strict (parseA : List Char → Option α)
    (table : TomlTable) (key : List Char) :
    Except ThisProjectError (Option (List α)) :=
  match tget table key with
  | some (.arr arr) =>
    match collect_results (fun v =>
      match v with
      | .str s =>
        match parseA s with
        | some ip => .ok ip
        | none =>
          .error (.tomlError (cl "Invalid " ++ key ++
            cl " format: invalid IP address syntax"))
      | _ =>
        .error (.tomlError (cl "Invalid " ++ key ++ cl " format: Expected string"))) arr with
    | .error e => .error e
    | .ok addresses => .ok (some addresses)
  | _ => .ok none

/-- `extract_u64` of `deserialize_one_file_main.rs` (no error sink): an
`Integer` node in `[0, i64::MAX]` is cast to `u64`; otherwise a descriptive
error is returned. -/
def extract_u64 (table : TomlTable) (key : List Char) :
    Except ThisProjectError Nat :=
  match tget table key with
  | some (.int i) =>
    if 0 ≤ i ∧ i ≤ i64_MAX then .ok i.toNat
    else .error (.tomlError (cl "Invalid " ++ key ++ cl ": Out of range for u64"))
  | _ => .error (.tomlError (cl "Missing or invalid " ++ key))

/-- `extract_u64` of `deserialization_from_toml_file_main.rs` and
`deserialization_main.rs`: same logic, but every error message is also
pushed onto the `&mut Vec` error sink (passed here as state). -/
def extract_u64_sink (table : TomlTable) (key : List Char)
    (errors : List ThisProjectError) :
    Except ThisProjectError Nat × List ThisProjectError :=
  match tget table key with
  | some (.int i) =>
    if 0 ≤ i ∧ i ≤ i64_MAX then (.ok i.toNat, errors)
    else
      (.error (.tomlError (cl "Invalid " ++ key ++ cl ": Out of range for u64")),
       errors ++ [.tomlError (cl "Invalid " ++ key ++ cl ": Out of range for u64")])
  | _ =>
    (.error (.tomlError (cl "Missing or invalid " ++ key)),
     errors ++ [.tomlError (cl "Missing or invalid " ++ key)])

namespace DeserializeOneFile

/-- Step 4 of `read_one_collaborator_setup_toml`
(`deserialize_one_file_main.rs`, lines 159–216): extraction of a
`CollaboratorTomlData` from a parsed `toml::Value`.  Steps 1–3 (path
construction, `fs::read_to_string`, `toml::from_str`) are external I/O and
are modelled separately.  `parse4` / `parse6` stand for the std
`s.parse::<Ipv4Addr>()` / `s.parse::<Ipv6Addr>()` calls.  Every `?` is an
explicit first-error match. -/
def read_one_collaborator_setup_toml
    (parse4 : List Char → Option Ipv4Addr) (parse6 : List Char → Option Ipv6Addr)
    (toml_value : Toml) : Except ThisProjectError CollaboratorTomlData :=
  match toml_value with
  | .table table =>
    match extract_user_name table with
    | .error e => .error e
    | .ok user_name =>
      match extract_user_salt_list table with
      | .error e => .error e
      | .ok user_salt_list =>
        match extract_addresses_failfast parse4 table (cl "ipv4_addresses") with
        | .error e => .error e
        | .ok ipv4_addresses =>
          match extract_addresses_failfast parse6 table (cl "ipv6_addresses") with
          | .error e => .error e
          | .ok ipv6_addresses =>
            match extract_gpg_key_public table with
            | .error e => .error e
            | .ok gpg_key_public =>
              match extract_u64 table (cl "sync_interval") with
              | .error e => .error e
              | .ok sync_interval =>
                match extract_u64 table (cl "updated_at_timestamp") with
                | .error e => .error e
                | .ok updated_at_timestamp =>
                  .ok { user_name, user_salt_list, ipv4_addresses,
                        ipv6_addresses, gpg_key_public, sync_interval,
                        updated_at_timestamp }
  | _ => .error (.tomlError (cl "Invalid TOML structure: Expected a table"))

end DeserializeOneFile

namespace DeserializationFromTomlFile

/-- One record attempt of `read_a_collaborator_setup_toml`
(`deserialization_from_toml_file_main.rs`, lines 137–195), on a TOML value
already known to be a table.  The result distinguishes the three control
paths of the loop body: `.error e` is a `?` that aborts the whole batch;
`.ok (none, errs)` is a `continue` after pushing a soft error;
`.ok (some c, errs)` is a successfully decoded record.  The error sink is
threaded as state. -/
def process_one_table
    (parse4 : List Char → Option Ipv4Addr) (parse6 : List Char → Option Ipv6Addr)
    (table : TomlTable) (errors : List ThisProjectError) :
    Except ThisProjectError (Option CollaboratorTomlData × List ThisProjectError) :=
  match extract_user_name table with
  | .error e => .ok (none, errors ++ [e])
  | .ok user_name =>
    match tget table (cl "user_salt_list") with
    | some (.arr arr) =>
      (match collect_results parse_salt arr with
      | .error e => .error e   -- the `?` on `collect` aborts the whole batch
      | .ok user_salt_list =>
        match extract_addresses_collect parse4 table (cl "ipv4_addresses") errors with
        | (.error e, _) => .error e
        | (.ok ipv4_addresses, errors1) =>
          match extract_addresses_collect parse6 table (cl "ipv6_addresses") errors1 with
          | (.error e, _) => .error e
          | (.ok ipv6_addresses, errors2) =>
            match extract_gpg_key_public table with
            | .error e => .ok (none, errors2 ++ [e])
            | .ok gpg_key_public =>
              match extract_u64_sink table (cl "sync_interval") errors2 with
              | (.error e, _) => .error e   -- `?` aborts; the pushed copy is lost
              | (.ok sync_interval, errors3) =>
                match extract_u64_sink table (cl "updated_at_timestamp") errors3 with
                | (.error e, _) => .error e
                | (.ok updated_at_timestamp, errors4) =>
                  .ok (some { user_name, user_salt_list, ipv4_addresses,
                              ipv6_addresses, gpg_key_public, sync_interval,
                              updated_at_timestamp }, errors4))
    | _ => .ok (none, errors ++ [.tomlError (cl "Missing user_salt_list")])

/-- Outcome of one `fs::read_dir` entry, as data: `is_toml_file` is
`path.is_file() && path.extension() == Some("toml")`; `read_result` is the
`fs::read_to_string` outcome, and on success the `toml::from_str` outcome
(the external TOML engine's verdict on the file's text). -/
structure TomlSource where
  is_toml_file : Bool
  read_result : Except (List Char) (Except (List Char) Toml)

end DeserializationFromTomlFile

namespace DeserializationFromTomlFile

/-- The `for entry in fs::read_dir(dir_path)?` loop of
`read_a_collaborator_setup_toml`, over the modelled directory entries, with
the two accumulator vectors as state.  `entry?` and `fs::read_to_string?`
abort the whole batch with an `IoError`; a text-level TOML parse failure
and a non-table root push a soft error and continue; the per-record body is
`process_one_table`. -/
def batch_loop
    (parse4 : List Char → Option Ipv4Addr) (parse6 : List Char → Option Ipv6Addr) :
    List (Except (List Char) TomlSource) →
    List CollaboratorTomlData → List ThisProjectError →
    Except ThisProjectError (List CollaboratorTomlData × List ThisProjectError)
  | [], collaborators, errors => .ok (collaborators, errors)
  | entry :: rest, collaborators, errors =>
    match entry with
    | .error e => .error (.ioError e)
    | .ok src =>
      if src.is_toml_file then
        match src.read_result with
        | .error e => .error (.ioError e)
        | .ok (.error parse_err) =>
          batch_loop parse4 parse6 rest collaborators (errors ++ [.tomlError parse_err])
        | .ok (.ok toml_value) =>
          match toml_value with
          | .table table =>
            match process_one_table parse4 parse6 table errors with
            | .error e => .error e
            | .ok (some c, errors2) =>
              batch_loop parse4 parse6 rest (collaborators ++ [c]) errors2
            | .ok (none, errors2) =>
              batch_loop parse4 parse6 rest collaborators errors2
          | _ =>
            batch_loop parse4 parse6 rest collaborators
              (errors ++ [.tomlError (cl "Invalid TOML structure")])
      else batch_loop parse4 parse6 rest collaborators errors

/-- `read_a_collaborator_setup_toml` of
`deserialization_from_toml_file_main.rs`: `read_dir` is the outcome of
`fs::read_dir` — `Err` when the directory cannot be opened, otherwise the
sequence of entry outcomes. -/
def read_a_collaborator_setup_toml
    (parse4 : List Char → Option Ipv4Addr) (parse6 : List Char → Option Ipv6Addr)
    (read_dir : Except (List Char) (List (Except (List Char) TomlSource))) :
    Except ThisProjectError (List CollaboratorTomlData × List ThisProjectError) :=
  match read_dir with
  | .error e => .error (.ioError e)
  | .ok entries => batch_loop parse4 parse6 entries [] []

end DeserializationFromTomlFile

/-- `DecidableEq` for `Except`, so concrete outcomes can be settled by
`decide`. -/
instance exceptDecEq [DecidableEq ε] [DecidableEq α] : DecidableEq (Except ε α) := fun
  | .error e, .error f =>
    if h : e = f then .isTrue (congrArg Except.error h)
    else .isFalse (fun hh => h (Except.error.inj hh))
  | .error _, .ok _ => .isFalse (fun hh => Except.noConfusion hh)
  | .ok _, .error _ => .isFalse (fun hh => Except.noConfusion hh)
  | .ok a, .ok b =>
    if h : a = b then .isTrue (congrArg Except.ok h)
    else .isFalse (fun hh => h (Except.ok.inj hh))

/-- Digit character, lowercase convention: `0`–`9` then `a`–`f` (the digit
characters Rust's `{:x}` and `{}` formatting emit). -/
def hex_digit_char (d : Nat) : Char :=
  if d < 10 then Char.ofNat ('0'.toNat + d) else Char.ofNat ('a'.toNat + (d - 10))

/-- Digit character, uppercase convention: `0`–`9` then `A`–`F` (as Rust's
`{:X}` would emit; used only to state hex case-insensitivity). -/
def hex_digit_char_upper (d : Nat) : Char :=
  if d < 10 then Char.ofNat ('0'.toNat + d) else Char.ofNat ('A'.toNat + (d - 10))

/-- Digit-emission loop for positional formatting, most significant digit
first; the fuel argument (always instantiated with `n + 1 ≥` the digit
count) only bounds the recursion. -/
def nat_digits_go (base : Nat) (digit : Nat → Char) : Nat → Nat → List Char → List Char
  | 0, _, acc => acc
  | fuel + 1, n, acc =>
    if n = 0 then acc else nat_digits_go base digit fuel (n / base) (digit (n % base) :: acc)

/-- Rust `format!("{:x}", n)`: lowercase hexadecimal, no leading zeros,
`0` for zero. -/
def fmt_lower_hex (n : Nat) : List Char :=
  if n = 0 then ['0'] else nat_digits_go 16 hex_digit_char (n + 1) n []

/-- Uppercase-hexadecimal counterpart of `fmt_lower_hex` (for stating hex
case-insensitivity of salt decoding). -/
def fmt_upper_hex (n : Nat) : List Char :=
  if n = 0 then ['0'] else nat_digits_go 16 hex_digit_char_upper (n + 1) n []

/-- Rust `format!("{}", n)` for an unsigned integer: decimal, no leading
zeros. -/
def fmt_decimal (n : Nat) : List Char :=
  if n = 0 then ['0'] else nat_digits_go 10 hex_digit_char (n + 1) n []

/-- Proof-side reference for `nat_digits_go`: the digit string of `n`
(empty for `0`) by well-founded recursion. -/
def radix_digits (base : Nat) (digit : Nat → Char) (n : Nat) : List Char :=
  if _ : n = 0 ∨ base ≤ 1 then []
  else radix_digits base digit (n / base) ++ [digit (n % base)]
termination_by n
decreasing_by
  rename_i h
  push_neg at h
  exact Nat.div_lt_self (Nat.pos_of_ne_zero h.1) h.2

/-- `Display` of `std::net::Ipv4Addr`: the four octets in decimal, joined
by dots. -/
def display_ipv4 (a : Ipv4Addr) : List Char :=
  fmt_decimal a.o0 ++ '.' :: fmt_decimal a.o1 ++ '.' :: fmt_decimal a.o2
    ++ '.' :: fmt_decimal a.o3

namespace SerializeToToml

/-- `serialize_ip_addresses` of `serialize_to_toml_main.rs`: appends
nothing for `None`; for `Some`, appends the key, an opening bracket line,
one indented quoted address per line (`Display` of the address abstracted
as `disp`), and a closing bracket line.  The source mutates the output
`String` and returns `Ok(())`; the appended text is returned directly
here (the `Result` is `Ok` on every path). -/
def serialize_ip_addresses (disp : α → List Char) (key : List Char) :
    Option (List α) → List Char
  | some addr_vec =>
    key ++ cl " = [\n"
      ++ (addr_vec.map (fun addr => cl "    \"" ++ disp addr ++ cl "\",\n")).flatten
      ++ cl "]\n"
  | none => []

/-- `serialize_collaborator_to_toml` of `serialize_to_toml_main.rs`: the
exact sequence of `push_str` calls, with each `format!` expanded.  Strings
are quoted verbatim (no escaping — the source's documented limitation),
salts are `0x`-prefixed lowercase hex, integers bare decimal.  The display
of `Ipv4Addr` / `Ipv6Addr` is abstracted as `disp4` / `disp6`. -/
def serialize_collaborator_to_toml
    (disp4 : Ipv4Addr → List Char) (disp6 : Ipv6Addr → List Char)
    (collaborator : CollaboratorTomlData) : Except ThisProjectError (List Char) :=
  .ok (cl "user_name = \"" ++ collaborator.user_name ++ cl "\"\n"
    ++ cl "user_salt_list = [\n"
    ++ (collaborator.user_salt_list.map
          (fun salt => cl "    \"0x" ++ fmt_lower_hex salt ++ cl "\",\n")).flatten
    ++ cl "]\n"
    ++ serialize_ip_addresses disp4 (cl "ipv4_addresses") collaborator.ipv4_addresses
    ++ serialize_ip_addresses disp6 (cl "ipv6_addresses") collaborator.ipv6_addresses
    ++ cl "gpg_key_public = \"" ++ collaborator.gpg_key_public ++ cl "\"\n"
    ++ cl "sync_interval = " ++ fmt_decimal collaborator.sync_interval ++ cl "\n"
    ++ cl "updated_at_timestamp = " ++ fmt_decimal collaborator.updated_at_timestamp
    ++ cl "\n")

end SerializeToToml

/-- Split a character list at every newline (the chunks do not contain the
separators; text ending in a newline yields a final empty chunk). -/
def split_lines : List Char → List (List Char)
  | [] => [[]]
  | '\n' :: rest => [] :: split_lines rest
  | c :: rest =>
    match split_lines rest with
    | [] => [[c]]
    | l :: ls => (c :: l) :: ls

/-- Split a `key = value` line at the first space: the key is the longest
space-free prefix, which must be followed by the literal ` = `. -/
def split_key_eq (l : List Char) : Option (List Char × List Char) :=
  let key := l.takeWhile (fun c => c ≠ ' ')
  match l.drop key.length with
  | ' ' :: '=' :: ' ' :: v => some (key, v)
  | _ => none

/-- Accumulate a nonempty run of decimal digits. -/
def parse_nat_go : List Char → Nat → Option Nat
  | [], acc => some acc
  | c :: rest, acc =>
    match char_to_digit c 10 with
    | some d => parse_nat_go rest (acc * 10 + d)
    | none => none

/-- A nonempty all-decimal-digit chunk, as a `Nat`. -/
def parse_nat_digits : List Char → Option Nat
  | [] => none
  | l => parse_nat_go l 0

/-- A bare TOML integer literal: optional `-` sign, decimal digits, and the
`i64` range of the external engine's integer type (out-of-range literals
are a parse error, as in `toml`). -/
def parse_int_scalar (l : List Char) : Option Int :=
  match l with
  | '-' :: rest =>
    match parse_nat_digits rest with
    | some n => if n ≤ 2 ^ 63 then some (-(n : Int)) else none
    | none => none
  | _ =>
    match parse_nat_digits l with
    | some n => if n < 2 ^ 63 then some (n : Int) else none
    | none => none

/-- A scalar value: `"..."` is a String node (contents verbatim), else a
bare integer. -/
def parse_scalar (v : List Char) : Option Toml :=
  match v with
  | '"' :: rest =>
    if rest.getLast? = some '"' then some (.str rest.dropLast) else none
  | _ => (parse_int_scalar v).map .int

/-- One line inside an array block: optional indentation, then a quoted
string or a bare integer, with a trailing comma. -/
def parse_array_elem (l : List Char) : Option Toml :=
  let t := l.dropWhile (fun c => c = ' ')
  match t with
  | '"' :: rest =>
    if rest.length ≥ 2 ∧ rest.drop (rest.length - 2) = ['"', ','] then
      some (.str (rest.take (rest.length - 2)))
    else none
  | _ =>
    match t.getLast? with
    | some ',' => (parse_int_scalar t.dropLast).map .int
    | _ => none

/-- Line-by-line parse of the flat table grammar; the first component
carries an open array block (its key and the elements so far). -/
def toml_parse_lines :
    Option (List Char × List Toml) → List (List Char) →
    Except (List Char) TomlTable
  | none, [] => .ok []
  | some _, [] => .error (cl "unterminated array")
  | none, line :: rest =>
    if line.isEmpty then toml_parse_lines none rest
    else
      match split_key_eq line with
      | none => .error (cl "expected key = value")
      | some (key, v) =>
        if v = ['['] then toml_parse_lines (some (key, [])) rest
        else
          match parse_scalar v with
          | none => .error (cl "invalid value")
          | some tv =>
            match toml_parse_lines none rest with
            | .error e => .error e
            | .ok entries => .ok ((key, tv) :: entries)
  | some (key, elems), line :: rest =>
    if line = [']'] then
      match toml_parse_lines none rest with
      | .error e => .error e
      | .ok entries => .ok ((key, .arr elems) :: entries)
    else
      match parse_array_elem line with
      | none => .error (cl "invalid array element")
      | some tv => toml_parse_lines (some (key, elems ++ [tv])) rest

/-- Modelled from the spec: the external generic table parser
(`toml::from_str::<Value>`), an out-of-scope collaborator whose code is not
in `src/`, restricted to the textual record format the spec documents — a
flat key/value table whose keys are space-free, scalar values are quoted
strings or bare (`i64`-ranged) integers, and arrays are bracketed blocks of
comma-terminated quoted-string or bare-integer lines.  Faithful to the real
engine on exactly the well-formed texts of that subset; in particular it is
only used on encoder output whose embedded strings contain no newline or
double-quote (the encoder performs no escaping — the source's documented
limitation). -/
def toml_from_str (s : List Char) : Except (List Char) Toml :=
  match toml_parse_lines none (split_lines s) with
  | .error e => .error e
  | .ok entries => .ok (.table entries)

namespace DeserializeOneFile

/-- `extract_ipv4_addresses` of `deserialize_one_file_main.rs` with the
std IPv4 parser instantiated. -/
def extract_ipv4_addresses (table : TomlTable) (key : List Char) :
    Except ThisProjectError (Option (List Ipv4Addr)) :=
  extract_addresses_failfast parse_ipv4 table key

/-- Steps 3–4 of `read_one_collaborator_setup_toml`: the text is handed to
the external TOML engine (modelled by `toml_from_str`); a syntax failure
becomes `TomlVanillaDeserialStrError` of the engine's message, and a
successful parse feeds the extraction step. -/
def read_one_collaborator_setup_toml_text
    (parse4 : List Char → Option Ipv4Addr) (parse6 : List Char → Option Ipv6Addr)
    (toml_string : List Char) : Except ThisProjectError CollaboratorTomlData :=
  match toml_from_str toml_string with
  | .error e => .error (.tomlError e)
  | .ok toml_value => read_one_collaborator_setup_toml parse4 parse6 toml_value

end DeserializeOneFile

namespace DeserializationFromTomlFile

/-- `extract_ipv4_addresses` of `deserialization_from_toml_file_main.rs`
with the std IPv4 parser instantiated. -/
def extract_ipv4_addresses (table : TomlTable) (key : List Char)
    (errors : List ThisProjectError) :
    Except ThisProjectError (Option (List Ipv4Addr)) × List ThisProjectError :=
  extract_addresses_collect parse_ipv4 table key errors

end DeserializationFromTomlFile

namespace DeserializationMain

/-- `extract_ipv4_addresses` of `deserialization_main.rs` with the std
IPv4 parser instantiated (its unused `&mut Vec` error sink dropped). -/
def extract_ipv4_addresses (table : TomlTable) (key : List Char) :
    Except ThisProjectError (Option (List Ipv4Addr)) :=
  extract_addresses_strict parse_ipv4 table key

end DeserializationMain

/-! ### Helper lemmas -/

theorem extract_user_name_ok_iff (table : TomlTable) (s : List Char) :
    extract_user_name table = .ok s ↔ tget table (cl "user_name") = some (.str s) := by
  unfold extract_user_name
  cases h : tget table (cl "user_name") with
  | none => simp
  | some v => cases v <;> simp

theorem read_one_err_user_name
    (parse4 : List Char → Option Ipv4Addr) (parse6 : List Char → Option Ipv6Addr)
    (table : TomlTable) (e : ThisProjectError)
    (h1 : extract_user_name table = .error e) :
    DeserializeOneFile.read_one_collaborator_setup_toml parse4 parse6 (.table table)
      = .error e := by
  simp only [DeserializeOneFile.read_one_collaborator_setup_toml, h1]

theorem read_one_err_salt
    (parse4 : List Char → Option Ipv4Addr) (parse6 : List Char → Option Ipv6Addr)
    (table : TomlTable) (n : List Char) (e : ThisProjectError)
    (h1 : extract_user_name table = .ok n)
    (h2 : extract_user_salt_list table = .error e) :
    DeserializeOneFile.read_one_collaborator_setup_toml parse4 parse6 (.table table)
      = .error e := by
  simp only [DeserializeOneFile.read_one_collaborator_setup_toml, h1, h2]

theorem read_one_err_ipv4
    (parse4 : List Char → Option Ipv4Addr) (parse6 : List Char → Option Ipv6Addr)
    (table : TomlTable) (n : List Char) (sl : List Nat) (e : ThisProjectError)
    (h1 : extract_user_name table = .ok n)
    (h2 : extract_user_salt_list table = .ok sl)
    (h3 : extract_addresses_failfast parse4 table (cl "ipv4_addresses") = .error e) :
    DeserializeOneFile.read_one_collaborator_setup_toml parse4 parse6 (.table table)
      = .error e := by
  simp only [DeserializeOneFile.read_one_collaborator_setup_toml, h1, h2, h3]

theorem read_one_err_ipv6
    (parse4 : List Char → Option Ipv4Addr) (parse6 : List Char → Option Ipv6Addr)
    (table : TomlTable) (n : List Char) (sl : List Nat)
    (i4 : Option (List Ipv4Addr)) (e : ThisProjectError)
    (h1 : extract_user_name table = .ok n)
    (h2 : extract_user_salt_list table = .ok sl)
    (h3 : extract_addresses_failfast parse4 table (cl "ipv4_addresses") = .ok i4)
    (h4 : extract_addresses_failfast parse6 table (cl "ipv6_addresses") = .error e) :
    DeserializeOneFile.read_one_collaborator_setup_toml parse4 parse6 (.table table)
      = .error e := by
  simp only [DeserializeOneFile.read_one_collaborator_setup_toml, h1, h2, h3, h4]

theorem read_one_err_gpg
    (parse4 : List Char → Option Ipv4Addr) (parse6 : List Char → Option Ipv6Addr)
    (table : TomlTable) (n : List Char) (sl : List Nat)
    (i4 : Option (List Ipv4Addr)) (i6 : Option (List Ipv6Addr)) (e : ThisProjectError)
    (h1 : extract_user_name table = .ok n)
    (h2 : extract_user_salt_list table = .ok sl)
    (h3 : extract_addresses_failfast parse4 table (cl "ipv4_addresses") = .ok i4)
    (h4 : extract_addresses_failfast parse6 table (cl "ipv6_addresses") = .ok i6)
    (h5 : extract_gpg_key_public table = .error e) :
    DeserializeOneFile.read_one_collaborator_setup_toml parse4 parse6 (.table table)
      = .error e := by
  simp only [DeserializeOneFile.read_one_collaborator_setup_toml, h1, h2, h3, h4, h5]

theorem read_one_err_sync
    (parse4 : List Char → Option Ipv4Addr) (parse6 : List Char → Option Ipv6Addr)
    (table : TomlTable) (n : List Char) (sl : List Nat)
    (i4 : Option (List Ipv4Addr)) (i6 : Option (List Ipv6Addr)) (g : List Char)
    (e : ThisProjectError)
    (h1 : extract_user_name table = .ok n)
    (h2 : extract_user_salt_list table = .ok sl)
    (h3 : extract_addresses_failfast parse4 table (cl "ipv4_addresses") = .ok i4)
    (h4 : extract_addresses_failfast parse6 table (cl "ipv6_addresses") = .ok i6)
    (h5 : extract_gpg_key_public table = .ok g)
    (h6 : extract_u64 table (cl "sync_interval") = .error e) :
    DeserializeOneFile.read_one_collaborator_setup_toml parse4 parse6 (.table table)
      = .error e := by
  simp only [DeserializeOneFile.read_one_collaborator_setup_toml, h1, h2, h3, h4, h5, h6]

theorem read_one_err_updated
    (parse4 : List Char → Option Ipv4Addr) (parse6 : List Char → Option Ipv6Addr)
    (table : TomlTable) (n : List Char) (sl : List Nat)
    (i4 : Option (List Ipv4Addr)) (i6 : Option (List Ipv6Addr)) (g : List Char)
    (si : Nat) (e : ThisProjectError)
    (h1 : extract_user_name table = .ok n)
    (h2 : extract_user_salt_list table = .ok sl)
    (h3 : extract_addresses_failfast parse4 table (cl "ipv4_addresses") = .ok i4)
    (h4 : extract_addresses_failfast parse6 table (cl "ipv6_addresses") = .ok i6)
    (h5 : extract_gpg_key_public table = .ok g)
    (h6 : extract_u64 table (cl "sync_interval") = .ok si)
    (h7 : extract_u64 table (cl "updated_at_timestamp") = .error e) :
    DeserializeOneFile.read_one_collaborator_setup_toml parse4 parse6 (.table table)
      = .error e := by
  simp only [DeserializeOneFile.read_one_collaborator_setup_toml, h1, h2, h3, h4, h5, h6, h7]

theorem read_one_ok
    (parse4 : List Char → Option Ipv4Addr) (parse6 : List Char → Option Ipv6Addr)
    (table : TomlTable) (n : List Char) (sl : List Nat)
    (i4 : Option (List Ipv4Addr)) (i6 : Option (List Ipv6Addr)) (g : List Char)
    (si ts : Nat)
    (h1 : extract_user_name table = .ok n)
    (h2 : extract_user_salt_list table = .ok sl)
    (h3 : extract_addresses_failfast parse4 table (cl "ipv4_addresses") = .ok i4)
    (h4 : extract_addresses_failfast parse6 table (cl "ipv6_addresses") = .ok i6)
    (h5 : extract_gpg_key_public table = .ok g)
    (h6 : extract_u64 table (cl "sync_interval") = .ok si)
    (h7 : extract_u64 table (cl "updated_at_timestamp") = .ok ts) :
    DeserializeOneFile.read_one_collaborator_setup_toml parse4 parse6 (.table table)
      = .ok { user_name := n, user_salt_list := sl, ipv4_addresses := i4,
              ipv6_addresses := i6, gpg_key_public := g, sync_interval := si,
              updated_at_timestamp := ts } := by
  simp only [DeserializeOneFile.read_one_collaborator_setup_toml,
    h1, h2, h3, h4, h5, h6, h7]

theorem read_one_not_table
    (parse4 : List Char → Option Ipv4Addr) (parse6 : List Char → Option Ipv6Addr)
    (v : Toml) (hv : ∀ table, v ≠ .table table) :
    DeserializeOneFile.read_one_collaborator_setup_toml parse4 parse6 v
      = .error (.tomlError (cl "Invalid TOML structure: Expected a table")) := by
  cases v with
  | table t => exact absurd rfl (hv t)
  | str s => rfl
  | int i => rfl
  | arr l => rfl
  | other => rfl

theorem collect_results_error_of_mem (f : α → Except ThisProjectError β)
    (l : List α) (x : α) (e : ThisProjectError)
    (hx : x ∈ l) (he : f x = .error e) :
    ∃ e2, collect_results f l = .error e2 := by
  induction l with
  | nil => cases hx
  | cons y ys ih =>
    unfold collect_results
    cases hy : f y with
    | error e3 => exact ⟨e3, rfl⟩
    | ok b =>
      rcases List.mem_cons.mp hx with rfl | hxs
      · rw [hy] at he; cases he
      · obtain ⟨e2, h2⟩ := ih hxs
        rw [h2]
        exact ⟨e2, rfl⟩

/-! ### Claims -/

/-- C2: for every input tree, the single-record extraction step of
`read_one_collaborator_setup_toml` first verifies the root is a table
(anything else is the malformed-table error), then evaluates the field
extractors in the fixed order user_name, user_salt_list, ipv4_addresses,
ipv6_addresses, gpg_key_public, sync_interval, updated_at_timestamp: when
an extractor fails and all earlier ones succeed, its error is the call's
result (whatever the later fields hold — they are not consulted), and no
`CollaboratorTomlData` is produced; when all succeed the record is built
from the seven extracted values. -/
theorem claim_C2_fail_fast_field_order
    (parse4 : List Char → Option Ipv4Addr) (parse6 : List Char → Option Ipv6Addr) :
    (∀ v, (∀ table, v ≠ .table table) →
      DeserializeOneFile.read_one_collaborator_setup_toml parse4 parse6 v
        = .error (.tomlError (cl "Invalid TOML structure: Expected a table"))) ∧
    (∀ table e, extract_user_name table = .error e →
      DeserializeOneFile.read_one_collaborator_setup_toml parse4 parse6 (.table table)
        = .error e) ∧
    (∀ table n e, extract_user_name table = .ok n →
      extract_user_salt_list table = .error e →
      DeserializeOneFile.read_one_collaborator_setup_toml parse4 parse6 (.table table)
        = .error e) ∧
    (∀ table n sl e, extract_user_name table = .ok n →
      extract_user_salt_list table = .ok sl →
      extract_addresses_failfast parse4 table (cl "ipv4_addresses") = .error e →
      DeserializeOneFile.read_one_collaborator_setup_toml parse4 parse6 (.table table)
        = .error e) ∧
    (∀ table n sl i4 e, extract_user_name table = .ok n →
      extract_user_salt_list table = .ok sl →
      extract_addresses_failfast parse4 table (cl "ipv4_addresses") = .ok i4 →
      extract_addresses_failfast parse6 table (cl "ipv6_addresses") = .error e →
      DeserializeOneFile.read_one_collaborator_setup_toml parse4 parse6 (.table table)
        = .error e) ∧
    (∀ table n sl i4 i6 e, extract_user_name table = .ok n →
      extract_user_salt_list table = .ok sl →
      extract_addresses_failfast parse4 table (cl "ipv4_addresses") = .ok i4 →
      extract_addresses_failfast parse6 table (cl "ipv6_addresses") = .ok i6 →
      extract_gpg_key_public table = .error e →
      DeserializeOneFile.read_one_collaborator_setup_toml parse4 parse6 (.table table)
        = .error e) ∧
    (∀ table n sl i4 i6 g e, extract_user_name table = .ok n →
      extract_user_salt_list table = .ok sl →
      extract_addresses_failfast parse4 table (cl "ipv4_addresses") = .ok i4 →
      extract_addresses_failfast parse6 table (cl "ipv6_addresses") = .ok i6 →
      extract_gpg_key_public table = .ok g →
      extract_u64 table (cl "sync_interval") = .error e →
      DeserializeOneFile.read_one_collaborator_setup_toml parse4 parse6 (.table table)
        = .error e) ∧
    (∀ table n sl i4 i6 g si e, extract_user_name table = .ok n →
      extract_user_salt_list table = .ok sl →
      extract_addresses_failfast parse4 table (cl "ipv4_addresses") = .ok i4 →
      extract_addresses_failfast parse6 table (cl "ipv6_addresses") = .ok i6 →
      extract_gpg_key_public table = .ok g →
      extract_u64 table (cl "sync_interval") = .ok si →
      extract_u64 table (cl "updated_at_timestamp") = .error e →
      DeserializeOneFile.read_one_collaborator_setup_toml parse4 parse6 (.table table)
        = .error e) ∧
    (∀ table n sl i4 i6 g si ts, extract_user_name table = .ok n →
      extract_user_salt_list table = .ok sl →
      extract_addresses_failfast parse4 table (cl "ipv4_addresses") = .ok i4 →
      extract_addresses_failfast parse6 table (cl "ipv6_addresses") = .ok i6 →
      extract_gpg_key_public table = .ok g →
      extract_u64 table (cl "sync_interval") = .ok si →
      extract_u64 table (cl "updated_at_timestamp") = .ok ts →
      DeserializeOneFile.read_one_collaborator_setup_toml parse4 parse6 (.table table)
        = .ok { user_name := n, user_salt_list := sl, ipv4_addresses := i4,
                ipv6_addresses := i6, gpg_key_public := g, sync_interval := si,
                updated_at_timestamp := ts }) :=
  ⟨fun v hv => read_one_not_table parse4 parse6 v hv,
   fun table e h1 => read_one_err_user_name parse4 parse6 table e h1,
   fun table n e h1 h2 => read_one_err_salt parse4 parse6 table n e h1 h2,
   fun table n sl e h1 h2 h3 => read_one_err_ipv4 parse4 parse6 table n sl e h1 h2 h3,
   fun table n sl i4 e h1 h2 h3 h4 =>
     read_one_err_ipv6 parse4 parse6 table n sl i4 e h1 h2 h3 h4,
   fun table n sl i4 i6 e h1 h2 h3 h4 h5 =>
     read_one_err_gpg parse4 parse6 table n sl i4 i6 e h1 h2 h3 h4 h5,
   fun table n sl i4 i6 g e h1 h2 h3 h4 h5 h6 =>
     read_one_err_sync parse4 parse6 table n sl i4 i6 g e h1 h2 h3 h4 h5 h6,
   fun table n sl i4 i6 g si e h1 h2 h3 h4 h5 h6 h7 =>
     read_one_err_updated parse4 parse6 table n sl i4 i6 g si e h1 h2 h3 h4 h5 h6 h7,
   fun table n sl i4 i6 g si ts h1 h2 h3 h4 h5 h6 h7 =>
     read_one_ok parse4 parse6 table n sl i4 i6 g si ts h1 h2 h3 h4 h5 h6 h7⟩

/-- Witness for C2: on a concrete table whose first five fields are fine
but whose `sync_interval` is a string, the decode returns exactly the
`sync_interval` extractor's error. -/
theorem claim_C2_witness :
    DeserializeOneFile.read_one_collaborator_setup_toml parse_ipv4 (fun _ => none)
      (.table [(cl "user_name", .str (cl "alice")),
               (cl "user_salt_list", .arr [.str (cl "0x1")]),
               (cl "gpg_key_public", .str (cl "key")),
               (cl "sync_interval", .str (cl "soon")),
               (cl "updated_at_timestamp", .int 5)])
      = .error (.tomlError (cl "Missing or invalid sync_interval")) :=
  ((claim_C2_fail_fast_field_order parse_ipv4 (fun _ => none)).2.2.2.2.2.2.1)
    [(cl "user_name", .str (cl "alice")),
     (cl "user_salt_list", .arr [.str (cl "0x1")]),
     (cl "gpg_key_public", .str (cl "key")),
     (cl "sync_interval", .str (cl "soon")),
     (cl "updated_at_timestamp", .int 5)]
    (cl "alice") [1] none none (cl "key")
    (.tomlError (cl "Missing or invalid sync_interval"))
    (by decide) (by decide) (by decide) (by decide) (by decide) (by decide)

/-- C7: `extract_u64` returns `Ok` of the value cast to `u64` exactly when
the key maps to an Integer node whose signed value `i` satisfies
`0 ≤ i ≤ i64::MAX`; a negative value fails with the out-of-range error, an
absent key or non-Integer node fails with the missing-or-invalid error, and
every error case returns no value (the sink variant of the batch decoders
returns the same verdict and additionally appends exactly its error message
to the sink). -/
theorem claim_C7_extract_u64_range
    (table : TomlTable) (key : List Char) :
    (∀ i, tget table key = some (.int i) → 0 ≤ i → i ≤ i64_MAX →
      extract_u64 table key = .ok i.toNat) ∧
    (∀ i, tget table key = some (.int i) → i < 0 →
      extract_u64 table key
        = .error (.tomlError (cl "Invalid " ++ key ++ cl ": Out of range for u64"))) ∧
    ((∀ i, tget table key ≠ some (.int i)) →
      extract_u64 table key = .error (.tomlError (cl "Missing or invalid " ++ key))) ∧
    (∀ v, extract_u64 table key = .ok v →
      ∃ i, tget table key = some (.int i) ∧ 0 ≤ i ∧ i ≤ i64_MAX ∧ v = i.toNat) ∧
    (∀ errors, extract_u64_sink table key errors
      = (extract_u64 table key,
         errors ++ match extract_u64 table key with
                   | .error e => [e]
                   | .ok _ => [])) := by
  refine ⟨?_, ?_, ?_, ?_, ?_⟩
  · intro i h h0 hmax
    simp only [extract_u64, h]
    rw [if_pos ⟨h0, hmax⟩]
  · intro i h hneg
    simp only [extract_u64, h]
    rw [if_neg (fun hc => absurd hc.1 (by omega))]
  · intro h
    unfold extract_u64
    cases ht : tget table key with
    | none => rfl
    | some v =>
      cases v with
      | int i => exact absurd ht (h i)
      | str s => rfl
      | arr l => rfl
      | table t => rfl
      | other => rfl
  · intro v h
    cases ht : tget table key with
    | none => simp only [extract_u64, ht] at h; cases h
    | some w =>
      cases w with
      | int i =>
        simp only [extract_u64, ht] at h
        by_cases hr : 0 ≤ i ∧ i ≤ i64_MAX
        · rw [if_pos hr] at h
          exact ⟨i, rfl, hr.1, hr.2, (Except.ok.inj h).symm⟩
        · rw [if_neg hr] at h; cases h
      | str s => simp only [extract_u64, ht] at h; cases h
      | arr l => simp only [extract_u64, ht] at h; cases h
      | table t => simp only [extract_u64, ht] at h; cases h
      | other => simp only [extract_u64, ht] at h; cases h
  · intro errors
    cases ht : tget table key with
    | none => simp only [extract_u64_sink, extract_u64, ht]
    | some w =>
      cases w with
      | int i =>
        simp only [extract_u64_sink, extract_u64, ht]
        by_cases hr : 0 ≤ i ∧ i ≤ i64_MAX
        · rw [if_pos hr, if_pos hr]; simp
        · rw [if_neg hr, if_neg hr]
      | str s => simp only [extract_u64_sink, extract_u64, ht]
      | arr l => simp only [extract_u64_sink, extract_u64, ht]
      | table t => simp only [extract_u64_sink, extract_u64, ht]
      | other => simp only [extract_u64_sink, extract_u64, ht]

/-- Witness for C7: the spec's own example `sync_interval = -1` fails with
the out-of-range error, and a well-ranged value is returned cast. -/
theorem claim_C7_witness :
    extract_u64 [(cl "sync_interval", .int (-1))] (cl "sync_interval")
        = .error (.tomlError (cl "Invalid sync_interval: Out of range for u64")) ∧
    extract_u64 [(cl "sync_interval", .int 60)] (cl "sync_interval") = .ok 60 := by
  constructor
  · exact (claim_C7_extract_u64_range [(cl "sync_interval", .int (-1))]
      (cl "sync_interval")).2.1 (-1) (by rfl) (by decide)
  · exact (claim_C7_extract_u64_range [(cl "sync_interval", .int 60)]
      (cl "sync_interval")).1 60 (by rfl) (by decide) (by decide)

/-- C4 counterexample: in the fail-fast single-record decoder, a present
`ipv4_addresses` key whose node is a String (not an Array) makes the
extractor return `Ok(None)` — it does not fail with any error — so the
claim that it fails as WrongFieldType is false. -/
theorem claim_C4_counterexample :
    DeserializeOneFile.extract_ipv4_addresses
        [(cl "ipv4_addresses", .str (cl "not an array"))] (cl "ipv4_addresses")
      = .ok none ∧
    ∀ e, DeserializeOneFile.extract_ipv4_addresses
        [(cl "ipv4_addresses", .str (cl "not an array"))] (cl "ipv4_addresses")
      ≠ .error e := by
  refine ⟨by rfl, ?_⟩
  intro e h
  rw [show DeserializeOneFile.extract_ipv4_addresses
      [(cl "ipv4_addresses", .str (cl "not an array"))] (cl "ipv4_addresses")
      = .ok none from rfl] at h
  cases h

/-- C4 amended: in the fail-fast single-record decoder
(`deserialize_one_file_main.rs`), an address-list key that is present but
whose node is not an Array is treated exactly like an absent key: the
extractor returns no value (`Ok(None)`) instead of failing — for either
address family, since both extractors share this definition. -/
theorem claim_C4_nonarray_is_absent {α : Type} (parseA : List Char → Option α)
    (table : TomlTable) (key : List Char) :
    (∀ v, tget table key = some v → (∀ arr, v ≠ .arr arr) →
      extract_addresses_failfast parseA table key = .ok none) ∧
    (tget table key = none → extract_addresses_failfast parseA table key = .ok none) := by
  constructor
  · intro v hv hnot
    cases v with
    | arr l => exact absurd rfl (hnot l)
    | str s => simp only [extract_addresses_failfast, hv]
    | int i => simp only [extract_addresses_failfast, hv]
    | table t => simp only [extract_addresses_failfast, hv]
    | other => simp only [extract_addresses_failfast, hv]
  · intro hv
    simp only [extract_addresses_failfast, hv]

/-- Witness for C4's amended theorem: an Integer node under the
`ipv6_addresses` key yields `Ok(None)`. -/
theorem claim_C4_witness :
    extract_addresses_failfast (fun _ => (none : Option Ipv6Addr))
      [(cl "ipv6_addresses", .int 7)] (cl "ipv6_addresses") = .ok none :=
  (claim_C4_nonarray_is_absent (fun _ => (none : Option Ipv6Addr))
      [(cl "ipv6_addresses", .int 7)] (cl "ipv6_addresses")).1
    (.int 7) (by rfl) (fun arr h => Toml.noConfusion h)

/-- C9 counterexample: a table whose `user_name` is the empty string (all
other required fields valid) decodes successfully — the single-record
decoder does not reject an empty `user_name`, so the claim that every
decoded record has a non-empty name is false. -/
theorem claim_C9_counterexample :
    DeserializeOneFile.read_one_collaborator_setup_toml parse_ipv4 (fun _ => none)
      (.table [(cl "user_name", .str []),
               (cl "user_salt_list", .arr [.str (cl "0x1")]),
               (cl "gpg_key_public", .str (cl "key")),
               (cl "sync_interval", .int 60),
               (cl "updated_at_timestamp", .int 5)])
      = .ok { user_name := [], user_salt_list := [1], ipv4_addresses := none,
              ipv6_addresses := none, gpg_key_public := cl "key",
              sync_interval := 60, updated_at_timestamp := 5 } := by
  rfl

/-- C9 amended: the single-record decoder copies `user_name` verbatim from
the table, rejecting only a missing key or a non-String node; the empty
string is accepted, and every successfully decoded record's `user_name` is
exactly the (possibly empty) source string. -/
theorem claim_C9_user_name_verbatim :
    (∀ table s, tget table (cl "user_name") = some (.str s) →
      extract_user_name table = .ok s) ∧
    (∀ (parse4 : List Char → Option Ipv4Addr) (parse6 : List Char → Option Ipv6Addr)
       (table : TomlTable) (r : CollaboratorTomlData),
      DeserializeOneFile.read_one_collaborator_setup_toml parse4 parse6 (.table table)
        = .ok r →
      tget table (cl "user_name") = some (.str r.user_name)) := by
  constructor
  · intro table s h
    exact (extract_user_name_ok_iff table s).mpr h
  · intro parse4 parse6 table r h
    simp only [DeserializeOneFile.read_one_collaborator_setup_toml] at h
    cases h1 : extract_user_name table with
    | error e => rw [h1] at h; cases h
    | ok n =>
      rw [h1] at h
      have hn : tget table (cl "user_name") = some (.str n) :=
        (extract_user_name_ok_iff table n).mp h1
      cases h2 : extract_user_salt_list table with
      | error e => rw [h2] at h; cases h
      | ok sl =>
        rw [h2] at h
        cases h3 : extract_addresses_failfast parse4 table (cl "ipv4_addresses") with
        | error e => rw [h3] at h; cases h
        | ok i4 =>
          rw [h3] at h
          cases h4 : extract_addresses_failfast parse6 table (cl "ipv6_addresses") with
          | error e => rw [h4] at h; cases h
          | ok i6 =>
            rw [h4] at h
            cases h5 : extract_gpg_key_public table with
            | error e => rw [h5] at h; cases h
            | ok g =>
              rw [h5] at h
              cases h6 : extract_u64 table (cl "sync_interval") with
              | error e => rw [h6] at h; cases h
              | ok si =>
                rw [h6] at h
                cases h7 : extract_u64 table (cl "updated_at_timestamp") with
                | error e => rw [h7] at h; cases h
                | ok ts =>
                  rw [h7] at h
                  cases h
                  exact hn

/-- Witness for C9's amended theorem: applied to the successful decode of
the empty-name table, it recovers the empty name from the table. -/
theorem claim_C9_witness :
    tget [(cl "user_name", .str []),
          (cl "user_salt_list", .arr [.str (cl "0x1")]),
          (cl "gpg_key_public", .str (cl "key")),
          (cl "sync_interval", .int 60),
          (cl "updated_at_timestamp", .int 5)] (cl "user_name") = some (.str []) :=
  claim_C9_user_name_verbatim.2 parse_ipv4 (fun _ => none) _
    { user_name := [], user_salt_list := [1], ipv4_addresses := none,
      ipv6_addresses := none, gpg_key_public := cl "key",
      sync_interval := 60, updated_at_timestamp := 5 } (by rfl)

/-- C10: salt parsing strips every leading lowercase `0x` before base-16
parsing — `ff`, `0xff` and `0x0xff` all decode to 255 — while the
uppercase prefix `0X` is not stripped and is rejected as an invalid hex
digit. -/
theorem claim_C10_prefix_stripping :
    (∀ s, trim_start_matches_0x ('0' :: 'x' :: s) = trim_start_matches_0x s) ∧
    parse_salt (.str (cl "ff")) = .ok 255 ∧
    parse_salt (.str (cl "0xff")) = .ok 255 ∧
    parse_salt (.str (cl "0x0xff")) = .ok 255 ∧
    parse_salt (.str (cl "0x0xff")) = parse_salt (.str (cl "ff")) ∧
    parse_salt (.str (cl "0Xff")) = .error (.parseIntError .invalidDigit) :=
  ⟨fun _ => rfl, by decide, by decide, by decide, by decide, by decide⟩

/-- C6 counterexample: a record whose `user_salt_list` holds a non-string
element (here the integer node `7`) is rejected with the descriptive
wrong-type error `TomlError "Invalid salt format: Expected string"` — an
error that is not a `ParseIntError` of any kind, so not the
InvalidHexInteger-kind error the claim asserts for this case. -/
theorem claim_C6_counterexample :
    DeserializeOneFile.read_one_collaborator_setup_toml parse_ipv4 (fun _ => none)
      (.table [(cl "user_name", .str (cl "alice")),
               (cl "user_salt_list", .arr [.int 7])])
      = .error (.tomlError (cl "Invalid salt format: Expected string"))
    ∧ ∀ k, ThisProjectError.tomlError (cl "Invalid salt format: Expected string")
        ≠ .parseIntError k :=
  ⟨rfl, fun k h => ThisProjectError.noConfusion h⟩

/-- C6 amended: any element of `user_salt_list` that is a non-string node,
or a string whose `0x`-stripped remainder fails base-16 parsing, makes the
salt-list extraction fail, and single-record decoding then rejects the
whole record with that error — no record with a partial salt list is
produced; the error kind, however, depends on the element: a bad string
yields the `ParseIntError` of the hex parse (the InvalidHexInteger kind),
while a non-string node yields the descriptive wrong-type
expected-string error, not an InvalidHexInteger-kind error. -/
theorem claim_C6_salt_error_rejects_record :
    (∀ (parse4 : List Char → Option Ipv4Addr) (parse6 : List Char → Option Ipv6Addr)
       (table : TomlTable) (n : List Char) (e : ThisProjectError),
      extract_user_name table = .ok n →
      extract_user_salt_list table = .error e →
      DeserializeOneFile.read_one_collaborator_setup_toml parse4 parse6 (.table table)
        = .error e) ∧
    (∀ table arr x e, tget table (cl "user_salt_list") = some (.arr arr) →
      x ∈ arr → parse_salt x = .error e →
      ∃ e2, extract_user_salt_list table = .error e2) ∧
    (∀ s k, from_str_radix_16_u128 (trim_start_matches_0x s) = .error k →
      parse_salt (.str s) = .error (.parseIntError k)) ∧
    (∀ v, (∀ s, v ≠ .str s) →
      parse_salt v = .error (.tomlError (cl "Invalid salt format: Expected string"))) ∧
    parse_salt (.str (cl "0xZZ")) = .error (.parseIntError .invalidDigit) := by
  refine ⟨?_, ?_, ?_, ?_, by decide⟩
  · intro parse4 parse6 table n e h1 h2
    exact read_one_err_salt parse4 parse6 table n e h1 h2
  · intro table arr x e ht hx he
    obtain ⟨e2, h2⟩ := collect_results_error_of_mem parse_salt arr x e hx he
    refine ⟨e2, ?_⟩
    simp only [extract_user_salt_list, ht, h2]
  · intro s k h
    simp only [parse_salt, h]
  · intro v hv
    cases v with
    | str s => exact absurd rfl (hv s)
    | int i => rfl
    | arr l => rfl
    | table t => rfl
    | other => rfl

/-- Witness for C6: the spec's own example `user_salt_list = ["0xZZ"]`
rejects the whole record with the hex `ParseIntError`. -/
theorem claim_C6_witness :
    DeserializeOneFile.read_one_collaborator_setup_toml parse_ipv4 (fun _ => none)
      (.table [(cl "user_name", .str (cl "alice")),
               (cl "user_salt_list", .arr [.str (cl "0xZZ")])])
      = .error (.parseIntError .invalidDigit) :=
  claim_C6_salt_error_rejects_record.1 parse_ipv4 (fun _ => none)
    [(cl "user_name", .str (cl "alice")),
     (cl "user_salt_list", .arr [.str (cl "0xZZ")])]
    (cl "alice") (.parseIntError .invalidDigit) (by decide) (by decide)

theorem addr_collect_loop_eq {α : Type} (parseA : List Char → Option α)
    (key : List Char) (arr : List Toml) :
    addr_collect_loop parseA key arr
      = (arr.filterMap (fun v => match v with | .str s => parseA s | _ => none),
         arr.filterMap (fun v =>
           match v with
           | .str s =>
             match parseA s with
             | some _ => none
             | none => some (.tomlError (cl "Invalid " ++ key ++
                 cl " format: invalid IP address syntax. Skipping this address."))
           | _ => some (.tomlError (cl "Invalid " ++ key ++
               cl " format: Expected string. Skipping this address.")))) := by
  induction arr with
  | nil => rfl
  | cons v rest ih =>
    cases v with
    | str s =>
      cases hp : parseA s <;>
        simp [addr_collect_loop, List.filterMap_cons, hp, ih]
    | int i => simp [addr_collect_loop, List.filterMap_cons, ih]
    | arr l => simp [addr_collect_loop, List.filterMap_cons, ih]
    | table t => simp [addr_collect_loop, List.filterMap_cons, ih]
    | other => simp [addr_collect_loop, List.filterMap_cons, ih]

theorem extract_addresses_collect_never_errors {α : Type}
    (parseA : List Char → Option α) (table : TomlTable) (key : List Char)
    (errors : List ThisProjectError) :
    ∃ r, (extract_addresses_collect parseA table key errors).1 = .ok r := by
  unfold extract_addresses_collect
  cases ht : tget table key with
  | none => exact ⟨none, rfl⟩
  | some v =>
    cases v with
    | arr l =>
      simp only
      split <;> exact ⟨_, rfl⟩
    | str s => exact ⟨none, rfl⟩
    | int i => exact ⟨none, rfl⟩
    | table t => exact ⟨none, rfl⟩
    | other => exact ⟨none, rfl⟩

/-- C1: the batch decoder does not confine hard aborts to a
directory-open failure.  A missing `user_name`, missing `user_salt_list`,
missing `gpg_key_public`, TOML syntax error or non-table root is indeed
appended to the errors sequence and the batch proceeds (second conjunct:
three sources, the bad middle one is skipped); but a malformed salt
element propagates through the `?` on `collect` and aborts the whole batch
(first conjunct), an out-of-range or missing integer field propagates
through the `?` on `extract_u64` and aborts the whole batch (third
conjunct), and a read failure on any single file aborts the whole batch
(fourth conjunct); a directory-open failure also aborts (fifth
conjunct). -/
theorem claim_C1_batch_abort_behaviour :
    DeserializationFromTomlFile.read_a_collaborator_setup_toml parse_ipv4 (fun _ => none)
      (.ok [.ok { is_toml_file := true,
                  read_result := .ok (.ok (.table
                    [(cl "user_name", .str (cl "alice")),
                     (cl "user_salt_list", .arr [.str (cl "0xZZ")])])) }])
      = .error (.parseIntError .invalidDigit) ∧
    DeserializationFromTomlFile.read_a_collaborator_setup_toml parse_ipv4 (fun _ => none)
      (.ok [.ok { is_toml_file := true,
                  read_result := .ok (.ok (.table
                    [(cl "user_name", .str (cl "alice")),
                     (cl "user_salt_list", .arr [.str (cl "0x1")]),
                     (cl "gpg_key_public", .str (cl "key1")),
                     (cl "sync_interval", .int 60),
                     (cl "updated_at_timestamp", .int 5)])) },
            .ok { is_toml_file := true,
                  read_result := .ok (.ok (.table
                    [(cl "user_salt_list", .arr [.str (cl "0x2")])])) },
            .ok { is_toml_file := true,
                  read_result := .ok (.ok (.table
                    [(cl "user_name", .str (cl "bob")),
                     (cl "user_salt_list", .arr [.str (cl "0x2")]),
                     (cl "gpg_key_public", .str (cl "key2")),
                     (cl "sync_interval", .int 30),
                     (cl "updated_at_timestamp", .int 6)])) }])
      = .ok ([{ user_name := cl "alice", user_salt_list := [1],
                ipv4_addresses := none, ipv6_addresses := none,
                gpg_key_public := cl "key1", sync_interval := 60,
                updated_at_timestamp := 5 },
              { user_name := cl "bob", user_salt_list := [2],
                ipv4_addresses := none, ipv6_addresses := none,
                gpg_key_public := cl "key2", sync_interval := 30,
                updated_at_timestamp := 6 }],
             [.tomlError (cl "Missing user_name")]) ∧
    DeserializationFromTomlFile.read_a_collaborator_setup_toml parse_ipv4 (fun _ => none)
      (.ok [.ok { is_toml_file := true,
                  read_result := .ok (.ok (.table
                    [(cl "user_name", .str (cl "alice")),
                     (cl "user_salt_list", .arr [.str (cl "0x1")]),
                     (cl "gpg_key_public", .str (cl "key1")),
                     (cl "sync_interval", .int (-1)),
                     (cl "updated_at_timestamp", .int 5)])) }])
      = .error (.tomlError (cl "Invalid sync_interval: Out of range for u64")) ∧
    DeserializationFromTomlFile.read_a_collaborator_setup_toml parse_ipv4 (fun _ => none)
      (.ok [.ok { is_toml_file := true,
                  read_result := .error (cl "permission denied") }])
      = .error (.ioError (cl "permission denied")) ∧
    ∀ msg, DeserializationFromTomlFile.read_a_collaborator_setup_toml parse_ipv4
      (fun _ => none) (.error msg) = .error (.ioError msg) :=
  ⟨by decide, by decide, by decide, by decide, fun msg => rfl⟩

/-- C3: the skip-invalid-elements policy for address arrays holds only in
the batch decoder's extractors.  In the collect variant
(`deserialization_from_toml_file_main.rs`) every non-string or unparsable
element appends exactly one descriptive error and is skipped, the valid
addresses survive in source order (fourth conjunct, a closed-form equation
for the loop; fifth conjunct, the extractor never returns `Err`), and the
spec's mixed example decodes to exactly `192.168.1.1` with one soft error
(third conjunct; sixth conjunct shows a full batch record succeeding so).
But in the single-record decoder (`deserialize_one_file_main.rs`) the same
mixed array makes the extractor — and the whole record — abort with an
error whose own text says "Skipping this address." (first and second
conjuncts), contradicting the claim for that variant. -/
theorem claim_C3_skip_vs_abort :
    DeserializeOneFile.extract_ipv4_addresses
        [(cl "ipv4_addresses", .arr [.str (cl "192.168.1.1"), .str (cl "not-an-ip")])]
        (cl "ipv4_addresses")
      = .error (.tomlError
          (cl "Invalid ipv4_addresses format: invalid IP address syntax. Skipping this address.")) ∧
    DeserializeOneFile.read_one_collaborator_setup_toml parse_ipv4 (fun _ => none)
      (.table [(cl "user_name", .str (cl "alice")),
               (cl "user_salt_list", .arr [.str (cl "0x1")]),
               (cl "ipv4_addresses", .arr [.str (cl "192.168.1.1"), .str (cl "not-an-ip")]),
               (cl "gpg_key_public", .str (cl "key")),
               (cl "sync_interval", .int 60),
               (cl "updated_at_timestamp", .int 5)])
      = .error (.tomlError
          (cl "Invalid ipv4_addresses format: invalid IP address syntax. Skipping this address.")) ∧
    DeserializationFromTomlFile.extract_ipv4_addresses
        [(cl "ipv4_addresses", .arr [.str (cl "192.168.1.1"), .str (cl "not-an-ip")])]
        (cl "ipv4_addresses") []
      = (.ok (some [{ o0 := 192, o1 := 168, o2 := 1, o3 := 1 }]),
         [.tomlError
          (cl "Invalid ipv4_addresses format: invalid IP address syntax. Skipping this address.")]) ∧
    (∀ (α : Type) (parseA : List Char → Option α) (key : List Char) (arr : List Toml),
      addr_collect_loop parseA key arr
        = (arr.filterMap (fun v => match v with | .str s => parseA s | _ => none),
           arr.filterMap (fun v =>
             match v with
             | .str s =>
               match parseA s with
               | some _ => none
               | none => some (.tomlError (cl "Invalid " ++ key ++
                   cl " format: invalid IP address syntax. Skipping this address."))
             | _ => some (.tomlError (cl "Invalid " ++ key ++
                 cl " format: Expected string. Skipping this address."))))) ∧
    (∀ (α : Type) (parseA : List Char → Option α) (table : TomlTable)
       (key : List Char) (errors : List ThisProjectError),
      ∃ r, (extract_addresses_collect parseA table key errors).1 = .ok r) ∧
    DeserializationFromTomlFile.read_a_collaborator_setup_toml parse_ipv4 (fun _ => none)
      (.ok [.ok { is_toml_file := true,
                  read_result := .ok (.ok (.table
                    [(cl "user_name", .str (cl "alice")),
                     (cl "user_salt_list", .arr [.str (cl "0x1")]),
                     (cl "ipv4_addresses",
                      .arr [.str (cl "192.168.1.1"), .str (cl "not-an-ip")]),
                     (cl "gpg_key_public", .str (cl "key")),
                     (cl "sync_interval", .int 60),
                     (cl "updated_at_timestamp", .int 5)])) }])
      = .ok ([{ user_name := cl "alice", user_salt_list := [1],
                ipv4_addresses := some [{ o0 := 192, o1 := 168, o2 := 1, o3 := 1 }],
                ipv6_addresses := none, gpg_key_public := cl "key",
                sync_interval := 60, updated_at_timestamp := 5 }],
             [.tomlError
              (cl "Invalid ipv4_addresses format: invalid IP address syntax. Skipping this address.")]) :=
  ⟨by decide, by decide, by decide,
   fun α parseA key arr => addr_collect_loop_eq parseA key arr,
   fun α parseA table key errors =>
     extract_addresses_collect_never_errors parseA table key errors,
   by decide⟩

theorem collect_results_ok_of_mem (f : α → Except ThisProjectError β)
    (l : List α) (bs : List β) (h : collect_results f l = .ok bs)
    (x : α) (hx : x ∈ l) : ∃ b, f x = .ok b := by
  induction l generalizing bs with
  | nil => cases hx
  | cons y ys ih =>
    unfold collect_results at h
    cases hy : f y with
    | error e => rw [hy] at h; cases h
    | ok b =>
      rw [hy] at h
      cases hys : collect_results f ys with
      | error e => rw [hys] at h; cases h
      | ok bs2 =>
        rcases List.mem_cons.mp hx with rfl | hxs
        · exact ⟨b, hy⟩
        · exact ih bs2 hys hxs

/-- C8 counterexample: in `deserialization_main.rs`, a present empty
address array yields `Ok(Some([]))` — an empty list, distinguishable from
the absent-key result `Ok(None)` — so the claim is false for that cited
extractor. -/
theorem claim_C8_counterexample :
    DeserializationMain.extract_ipv4_addresses
        [(cl "ipv4_addresses", .arr [])] (cl "ipv4_addresses") = .ok (some []) ∧
    DeserializationMain.extract_ipv4_addresses
        [(cl "ipv4_addresses", .arr [])] (cl "ipv4_addresses") ≠ .ok none := by
  refine ⟨by rfl, ?_⟩
  intro h
  rw [show DeserializationMain.extract_ipv4_addresses
      [(cl "ipv4_addresses", .arr [])] (cl "ipv4_addresses")
      = .ok (some []) from rfl] at h
  simp at h

/-- C8 amended: the zero-valid-addresses-collapse-to-None behaviour holds
for the batch extractors of `deserialization_from_toml_file_main.rs`: a
present array none of whose elements is a string parsed by the address
family yields `Ok(None)` (first conjunct), identical to an absent key
(second conjunct).  In `deserialization_main.rs`'s extractor, by contrast,
a present empty array yields `Ok(Some([]))` (third conjunct) and an
invalid element is a hard error instead of a skip (fourth conjunct). -/
theorem claim_C8_empty_collapse
    {α : Type} (parseA : List Char → Option α) (table : TomlTable) (key : List Char) :
    (∀ (errors : List ThisProjectError) (arr : List Toml),
      tget table key = some (.arr arr) →
      arr.filterMap (fun v => match v with | .str s => parseA s | _ => none) = [] →
      (extract_addresses_collect parseA table key errors).1 = .ok none) ∧
    (∀ errors, tget table key = none →
      (extract_addresses_collect parseA table key errors).1 = .ok none) ∧
    (tget table key = some (.arr []) →
      extract_addresses_strict parseA table key = .ok (some [])) ∧
    (∀ arr v, tget table key = some (.arr arr) → v ∈ arr →
      ((∀ s, v ≠ .str s) ∨ (∃ s, v = .str s ∧ parseA s = none)) →
      ∃ e, extract_addresses_strict parseA table key = .error e) := by
  refine ⟨?_, ?_, ?_, ?_⟩
  · intro errors arr ht hempty
    simp only [extract_addresses_collect, ht, addr_collect_loop_eq, hempty]
    rfl
  · intro errors ht
    simp only [extract_addresses_collect, ht]
  · intro ht
    simp only [extract_addresses_strict, ht]
    rfl
  · intro arr v ht hv hbad
    cases hres : extract_addresses_strict parseA table key with
    | error e => exact ⟨e, rfl⟩
    | ok r =>
      exfalso
      simp only [extract_addresses_strict, ht] at hres
      split at hres
      · cases hres
      · rename_i addresses heq
        obtain ⟨b, hb⟩ := collect_results_ok_of_mem _ arr addresses heq v hv
        rcases hbad with hns | ⟨s, rfl, hp⟩
        · cases v with
          | str s => exact absurd rfl (hns s)
          | int i => simp at hb
          | arr l => simp at hb
          | table t => simp at hb
          | other => simp at hb
        · simp [hp] at hb

/-- Witness for C8's amended theorem: an array whose single element does
not parse collapses to `Ok(None)` in the collect extractor. -/
theorem claim_C8_witness :
    (extract_addresses_collect parse_ipv4
        [(cl "ipv4_addresses", .arr [.str (cl "not-an-ip")])]
        (cl "ipv4_addresses") []).1 = .ok none :=
  (claim_C8_empty_collapse parse_ipv4
      [(cl "ipv4_addresses", .arr [.str (cl "not-an-ip")])]
      (cl "ipv4_addresses")).1 [] [.str (cl "not-an-ip")] (by rfl) (by rfl)

/-! ### Digit-string lemmas (towards the round-trip claim) -/

theorem radix_digits_zero (base : Nat) (digitf : Nat → Char) :
    radix_digits base digitf 0 = [] := by
  rw [radix_digits]
  simp

theorem radix_digits_pos (base : Nat) (digitf : Nat → Char) (n : Nat)
    (hn : n ≠ 0) (hb : 2 ≤ base) :
    radix_digits base digitf n
      = radix_digits base digitf (n / base) ++ [digitf (n % base)] := by
  rw [radix_digits]
  rw [dif_neg (by push_neg; exact ⟨hn, by omega⟩ : ¬(n = 0 ∨ base ≤ 1))]

theorem nat_digits_go_eq_radix (base : Nat) (digitf : Nat → Char) (hb : 2 ≤ base) :
    ∀ fuel n acc, n < fuel →
      nat_digits_go base digitf fuel n acc = radix_digits base digitf n ++ acc := by
  intro fuel
  induction fuel with
  | zero => intro n acc h; omega
  | succ f ih =>
    intro n acc h
    unfold nat_digits_go
    by_cases hn : n = 0
    · subst hn
      rw [if_pos rfl, radix_digits_zero]
      rfl
    · rw [if_neg hn]
      have hdiv : n / base < f := by
        have h1 : n / base < n := Nat.div_lt_self (Nat.pos_of_ne_zero hn) (by omega)
        omega
      rw [ih (n / base) (digitf (n % base) :: acc) hdiv,
        radix_digits_pos base digitf n hn hb]
      simp

theorem fmt_lower_hex_eq (n : Nat) (hn : n ≠ 0) :
    fmt_lower_hex n = radix_digits 16 hex_digit_char n := by
  rw [fmt_lower_hex, if_neg hn,
    nat_digits_go_eq_radix 16 hex_digit_char (by omega) (n + 1) n [] (by omega)]
  simp

theorem fmt_upper_hex_eq (n : Nat) (hn : n ≠ 0) :
    fmt_upper_hex n = radix_digits 16 hex_digit_char_upper n := by
  rw [fmt_upper_hex, if_neg hn,
    nat_digits_go_eq_radix 16 hex_digit_char_upper (by omega) (n + 1) n [] (by omega)]
  simp

theorem fmt_decimal_eq (n : Nat) (hn : n ≠ 0) :
    fmt_decimal n = radix_digits 10 hex_digit_char n := by
  rw [fmt_decimal, if_neg hn,
    nat_digits_go_eq_radix 10 hex_digit_char (by omega) (n + 1) n [] (by omega)]
  simp

theorem radix_digits_mem (base : Nat) (digitf : Nat → Char) (hb : 2 ≤ base) :
    ∀ n c, c ∈ radix_digits base digitf n → ∃ d, d < base ∧ c = digitf d := by
  intro n
  induction n using Nat.strong_induction_on with
  | _ n ih =>
    intro c hc
    by_cases hn : n = 0
    · subst hn; rw [radix_digits_zero] at hc; cases hc
    · rw [radix_digits_pos base digitf n hn hb] at hc
      rcases List.mem_append.mp hc with h1 | h2
      · exact ih (n / base) (Nat.div_lt_self (Nat.pos_of_ne_zero hn) (by omega)) c h1
      · rcases List.mem_singleton.mp h2 with rfl
        exact ⟨n % base, Nat.mod_lt n (by omega), rfl⟩

theorem radix_digits_ne_nil (base : Nat) (digitf : Nat → Char) (hb : 2 ≤ base)
    (n : Nat) (hn : n ≠ 0) : radix_digits base digitf n ≠ [] := by
  rw [radix_digits_pos base digitf n hn hb]
  simp

theorem radix_digits_length_le (base : Nat) (digitf : Nat → Char) (hb : 2 ≤ base) :
    ∀ k n, n < base ^ k → (radix_digits base digitf n).length ≤ k := by
  intro k
  induction k with
  | zero =>
    intro n h
    have : n = 0 := by simpa using h
    subst this
    rw [radix_digits_zero]
    simp
  | succ k ih =>
    intro n h
    by_cases hn : n = 0
    · subst hn; rw [radix_digits_zero]; simp
    · rw [radix_digits_pos base digitf n hn hb]
      have : n / base < base ^ k := by
        rw [Nat.div_lt_iff_lt_mul (by omega)]
        calc n < base ^ (k + 1) := h
        _ = base ^ k * base := by ring
      have := ih (n / base) this
      simp only [List.length_append, List.length_cons, List.length_nil]
      omega

theorem radix_digits_head (base : Nat) (digitf : Nat → Char) (hb : 2 ≤ base) :
    ∀ n, n ≠ 0 → ∃ d rest, d < base ∧ d ≠ 0 ∧
      radix_digits base digitf n = digitf d :: rest := by
  intro n
  induction n using Nat.strong_induction_on with
  | _ n ih =>
    intro hn
    rw [radix_digits_pos base digitf n hn hb]
    by_cases hsmall : n / base = 0
    · rw [hsmall, radix_digits_zero]
      refine ⟨n % base, [], Nat.mod_lt n (by omega), ?_, rfl⟩
      have hlt : n < base := by
        by_contra hge
        push_neg at hge
        have : 0 < n / base := Nat.div_pos hge (by omega)
        omega
      rw [Nat.mod_eq_of_lt hlt]
      exact hn
    · obtain ⟨d, rest, hd, hd0, heq⟩ :=
        ih (n / base) (Nat.div_lt_self (Nat.pos_of_ne_zero hn) (by omega)) hsmall
      exact ⟨d, rest ++ [digitf (n % base)], hd, hd0, by rw [heq]; rfl⟩

theorem digit_foldl_le (base : Nat) (hb : 1 ≤ base) :
    ∀ (l : List Char) (acc : Nat),
      acc ≤ l.foldl (fun a c => a * base + (char_to_digit c base).getD 0) acc := by
  intro l
  induction l with
  | nil => intro acc; simp
  | cons c rest ih =>
    intro acc
    simp only [List.foldl_cons]
    calc acc ≤ acc * base + (char_to_digit c base).getD 0 := by
          have : acc ≤ acc * base := Nat.le_mul_of_pos_right acc (by omega)
          omega
    _ ≤ _ := ih (acc * base + (char_to_digit c base).getD 0)

theorem digit_foldl_radix (base : Nat) (digitf : Nat → Char) (hb : 2 ≤ base)
    (hd : ∀ d, d < base → char_to_digit (digitf d) base = some d) :
    ∀ n acc,
      (radix_digits base digitf n).foldl
          (fun a c => a * base + (char_to_digit c base).getD 0) acc
        = acc * base ^ (radix_digits base digitf n).length + n := by
  intro n
  induction n using Nat.strong_induction_on with
  | _ n ih =>
    intro acc
    by_cases hn : n = 0
    · subst hn; rw [radix_digits_zero]; simp
    · rw [radix_digits_pos base digitf n hn hb]
      rw [List.foldl_append]
      rw [ih (n / base) (Nat.div_lt_self (Nat.pos_of_ne_zero hn) (by omega)) acc]
      simp only [List.foldl_cons, List.foldl_nil, List.length_append,
        List.length_cons, List.length_nil]
      rw [hd (n % base) (Nat.mod_lt n (by omega))]
      simp only [Option.getD_some]
      have : acc * base ^ ((radix_digits base digitf (n / base)).length + (0 + 1))
          = acc * base ^ (radix_digits base digitf (n / base)).length * base := by
        ring
      rw [this, Nat.add_mul, Nat.add_assoc, Nat.div_add_mod']

theorem from_str_radix_16_go_ok :
    ∀ (l : List Char) (acc : Nat),
      (∀ c ∈ l, (char_to_digit c 16).isSome) →
      l.foldl (fun a c => a * 16 + (char_to_digit c 16).getD 0) acc < u128_BOUND →
      from_str_radix_16_go l acc
        = .ok (l.foldl (fun a c => a * 16 + (char_to_digit c 16).getD 0) acc) := by
  intro l
  induction l with
  | nil => intro acc _ _; rfl
  | cons c rest ih =>
    intro acc hdig hbound
    have hc := hdig c (List.mem_cons_self c rest)
    obtain ⟨d, hd⟩ := Option.isSome_iff_exists.mp hc
    simp only [List.foldl_cons, hd, Option.getD_some] at hbound ⊢
    have hmono := digit_foldl_le 16 (by omega) rest (acc * 16 + d)
    simp only [from_str_radix_16_go, hd]
    rw [if_pos (by omega), if_pos (by omega)]
    exact ih (acc * 16 + d) (fun x hx => hdig x (List.mem_cons_of_mem c hx)) hbound

theorem fsr_eq_go (c : Char) (cs : List Char)
    (h1 : c ≠ '+') (h2 : c ≠ '-') :
    from_str_radix_16_u128 (c :: cs) = from_str_radix_16_go (c :: cs) 0 := by
  unfold from_str_radix_16_u128
  split
  · rename_i heq; cases heq
  · rename_i heq
    rw [List.cons.injEq] at heq
    exact absurd heq.1 h1
  · rename_i heq
    rw [List.cons.injEq] at heq
    exact absurd heq.1 h2
  · rename_i rest heq
    rw [List.cons.injEq] at heq
    exact absurd heq.1 h1
  · rfl

theorem trim_cons_ne (c : Char) (cs : List Char) (h : c ≠ '0') :
    trim_start_matches_0x (c :: cs) = c :: cs := by
  unfold trim_start_matches_0x
  split
  · rename_i heq
    rw [List.cons.injEq] at heq
    exact absurd heq.1 h
  · rfl

theorem fsr_hex_digits_ok (digitf : Nat → Char)
    (hd : ∀ d, d < 16 → char_to_digit (digitf d) 16 = some d)
    (n : Nat) (hn : n < u128_BOUND) :
    from_str_radix_16_u128 (if n = 0 then ['0'] else radix_digits 16 digitf n)
      = .ok n := by
  by_cases h0 : n = 0
  · subst h0; rw [if_pos rfl]; decide
  · rw [if_neg h0]
    obtain ⟨d, rest, hdlt, hd0, heq⟩ := radix_digits_head 16 digitf (by omega) n h0
    have hdig : ∀ c ∈ radix_digits 16 digitf n, (char_to_digit c 16).isSome := by
      intro c hc
      obtain ⟨e, he, rfl⟩ := radix_digits_mem 16 digitf (by omega) n c hc
      rw [hd e he]; rfl
    have hfold := digit_foldl_radix 16 digitf (by omega) hd n 0
    simp only [Nat.zero_mul, Nat.zero_add] at hfold
    have hsign1 : digitf d ≠ '+' := by
      intro hcontra
      have := hd d hdlt
      rw [hcontra, show char_to_digit '+' 16 = none from rfl] at this
      cases this
    have hsign2 : digitf d ≠ '-' := by
      intro hcontra
      have := hd d hdlt
      rw [hcontra, show char_to_digit '-' 16 = none from rfl] at this
      cases this
    rw [heq, fsr_eq_go (digitf d) rest hsign1 hsign2, ← heq,
      from_str_radix_16_go_ok (radix_digits 16 digitf n) 0 hdig (by rw [hfold]; exact hn),
      hfold]

theorem parse_salt_hex_digits (digitf : Nat → Char)
    (hd : ∀ d, d < 16 → char_to_digit (digitf d) 16 = some d)
    (hne0 : ∀ d, d < 16 → d ≠ 0 → digitf d ≠ '0')
    (n : Nat) (hn : n < u128_BOUND) :
    parse_salt (.str (cl "0x" ++ (if n = 0 then ['0'] else radix_digits 16 digitf n)))
      = .ok n := by
  have htrim : trim_start_matches_0x
      (cl "0x" ++ (if n = 0 then ['0'] else radix_digits 16 digitf n))
      = (if n = 0 then ['0'] else radix_digits 16 digitf n) := by
    have hcons : cl "0x" ++ (if n = 0 then ['0'] else radix_digits 16 digitf n)
        = '0' :: 'x' :: (if n = 0 then ['0'] else radix_digits 16 digitf n) := rfl
    rw [hcons]
    have hstep : trim_start_matches_0x
        ('0' :: 'x' :: (if n = 0 then ['0'] else radix_digits 16 digitf n))
        = trim_start_matches_0x (if n = 0 then ['0'] else radix_digits 16 digitf n) := rfl
    rw [hstep]
    by_cases h0 : n = 0
    · subst h0; rfl
    · rw [if_neg h0]
      obtain ⟨d, rest, hdlt, hd0, heq⟩ := radix_digits_head 16 digitf (by omega) n h0
      rw [heq, trim_cons_ne (digitf d) rest (hne0 d hdlt hd0)]
  simp only [parse_salt, htrim, fsr_hex_digits_ok digitf hd n hn]

theorem read_digits_u8_spec :
    ∀ (l rest : List Char) (acc count : Nat),
      (∀ c ∈ l, (char_to_digit c 10).isSome) →
      (match rest with | [] => True | c :: _ => char_to_digit c 10 = none) →
      l.foldl (fun a c => a * 10 + (char_to_digit c 10).getD 0) acc ≤ 255 →
      count + l.length ≤ 3 →
      read_digits_u8 (l ++ rest) acc count
        = some (l.foldl (fun a c => a * 10 + (char_to_digit c 10).getD 0) acc,
                count + l.length, rest) := by
  intro l
  induction l with
  | nil =>
    intro rest acc count _ hrest _ _
    cases rest with
    | nil => rfl
    | cons c cs =>
      simp only [List.nil_append, List.length_nil, Nat.add_zero, List.foldl_nil]
      unfold read_digits_u8
      rw [hrest]
  | cons c cs ih =>
    intro rest acc count hdig hrest hbound hcount
    have hc := hdig c (List.mem_cons_self c cs)
    obtain ⟨d, hd⟩ := Option.isSome_iff_exists.mp hc
    simp only [List.foldl_cons, hd, Option.getD_some] at hbound ⊢
    have hmono := digit_foldl_le 10 (by omega) cs (acc * 10 + d)
    simp only [List.cons_append]
    unfold read_digits_u8
    rw [hd]
    simp only
    rw [if_pos (by omega), if_pos (by omega), if_neg (by
      simp only [List.length_cons] at hcount
      omega)]
    have := ih rest (acc * 10 + d) (count + 1)
      (fun x hx => hdig x (List.mem_cons_of_mem c hx)) hrest hbound
      (by simp only [List.length_cons] at hcount ⊢; omega)
    rw [this]
    simp only [List.length_cons]
    have : count + 1 + cs.length = count + (cs.length + 1) := by omega
    rw [this]

theorem read_number_u8_fmt (o : Nat) (ho : o ≤ 255) (rest : List Char)
    (hrest : match rest with | [] => True | c :: _ => char_to_digit c 10 = none) :
    read_number_u8 (fmt_decimal o ++ rest) = some (o, rest) := by
  by_cases h0 : o = 0
  · subst h0
    have h1 : read_digits_u8 (['0'] ++ rest) 0 0 = some (0, 1, rest) := by
      have := read_digits_u8_spec ['0'] rest 0 0
        (by intro c hc; rcases List.mem_singleton.mp hc with rfl; rfl)
        hrest (by decide) (by decide)
      simpa using this
    unfold read_number_u8
    rw [show fmt_decimal 0 = ['0'] from rfl]
    simp only [h1]
    rw [if_neg (by omega), if_neg (by rintro ⟨_, hgt⟩; omega)]
  · have hfold := digit_foldl_radix 10 hex_digit_char (by omega)
      (by intro d hd; revert hd; revert d; decide) o 0
    simp only [Nat.zero_mul, Nat.zero_add] at hfold
    have hdig : ∀ c ∈ radix_digits 10 hex_digit_char o, (char_to_digit c 10).isSome := by
      intro c hc
      obtain ⟨e, he, rfl⟩ := radix_digits_mem 10 hex_digit_char (by omega) o c hc
      have hall : ∀ x, x < 10 → char_to_digit (hex_digit_char x) 10 = some x := by decide
      rw [hall e he]; rfl
    have hlen : (radix_digits 10 hex_digit_char o).length ≤ 3 :=
      radix_digits_length_le 10 hex_digit_char (by omega) 3 o (by omega)
    have h1 := read_digits_u8_spec (radix_digits 10 hex_digit_char o) rest 0 0
      hdig hrest (by rw [hfold]; exact ho) (by omega)
    rw [hfold] at h1
    obtain ⟨d, tail, hdlt, hd0, heq⟩ := radix_digits_head 10 hex_digit_char (by omega) o h0
    have hdne : hex_digit_char d ≠ '0' := by
      have hall : ∀ x, x < 10 → x ≠ 0 → hex_digit_char x ≠ '0' := by decide
      exact hall d hdlt hd0
    rw [fmt_decimal_eq o h0]
    unfold read_number_u8
    simp only [h1]
    rw [if_neg (by
      rw [heq]
      simp only [List.length_cons]
      omega)]
    rw [if_neg ?hlz]
    case hlz =>
      rintro ⟨hmatch, _⟩
      rw [heq] at hmatch
      simp only [List.cons_append] at hmatch
      split at hmatch
      · rename_i heq2
        rw [List.cons.injEq] at heq2
        exact absurd heq2.1 hdne
      · cases hmatch

theorem parse_ipv4_display (a : Ipv4Addr)
    (h0 : a.o0 ≤ 255) (h1 : a.o1 ≤ 255) (h2 : a.o2 ≤ 255) (h3 : a.o3 ≤ 255) :
    parse_ipv4 (display_ipv4 a) = some a := by
  unfold display_ipv4 parse_ipv4
  simp only [List.cons_append, List.append_assoc]
  rw [read_number_u8_fmt a.o0 h0 ('.' :: (fmt_decimal a.o1 ++ '.' :: (fmt_decimal a.o2
      ++ '.' :: fmt_decimal a.o3))) (by rfl)]
  simp only [expect_dot]
  rw [read_number_u8_fmt a.o1 h1 ('.' :: (fmt_decimal a.o2 ++ '.' :: fmt_decimal a.o3))
      (by rfl)]
  simp only [expect_dot]
  rw [read_number_u8_fmt a.o2 h2 ('.' :: fmt_decimal a.o3) (by rfl)]
  simp only [expect_dot]
  rw [show fmt_decimal a.o3 = fmt_decimal a.o3 ++ [] by simp,
    read_number_u8_fmt a.o3 h3 [] (by trivial)]
  simp

theorem split_lines_append (X Y : List Char) (hX : '\n' ∉ X) :
    split_lines (X ++ '\n' :: Y) = X :: split_lines Y := by
  induction X with
  | nil => rfl
  | cons c cs ih =>
    have hc : c ≠ '\n' := fun h => hX (h ▸ List.mem_cons_self c cs)
    have hcs : '\n' ∉ cs := fun h => hX (List.mem_cons_of_mem c h)
    simp only [List.cons_append]
    conv_lhs => rw [split_lines.eq_def]
    split
    · rename_i heq; cases heq
    · rename_i heq
      rw [List.cons.injEq] at heq
      exact absurd heq.1 hc
    · rename_i c2 rest heq
      rw [List.cons.injEq] at heq
      obtain ⟨rfl, rfl⟩ := heq
      rw [ih hcs]

theorem split_lines_flatten :
    ∀ (lines : List (List Char)), (∀ l ∈ lines, '\n' ∉ l) →
      split_lines ((lines.map (fun l => l ++ ['\n'])).flatten) = lines ++ [[]] := by
  intro lines
  induction lines with
  | nil => intro _; rfl
  | cons l ls ih =>
    intro h
    simp only [List.map_cons, List.flatten_cons]
    have : (l ++ ['\n']) ++ ((ls.map (fun l => l ++ ['\n'])).flatten)
        = l ++ '\n' :: ((ls.map (fun l => l ++ ['\n'])).flatten) := by
      simp
    rw [this, split_lines_append l _ (h l (List.mem_cons_self l ls)),
      ih (fun x hx => h x (List.mem_cons_of_mem l hx))]
    rfl

theorem flatten_map_nl {α : Type} (f g : α → List Char)
    (h : ∀ x, f x = g x ++ ['\n']) (l : List α) :
    (l.map f).flatten = ((l.map g).map (fun s => s ++ ['\n'])).flatten := by
  induction l with
  | nil => rfl
  | cons x xs ih => simp only [List.map_cons, List.flatten_cons, h x, ih]

theorem takeWhile_append_stop (p : Char → Bool) :
    ∀ (k rest : List Char), (∀ c ∈ k, p c = true) →
      (match rest with | [] => True | c :: _ => p c = false) →
      (k ++ rest).takeWhile p = k := by
  intro k
  induction k with
  | nil =>
    intro rest _ hrest
    cases rest with
    | nil => rfl
    | cons c cs => simp [List.takeWhile_cons, hrest]
  | cons a k2 ih =>
    intro rest hk hrest
    simp only [List.cons_append, List.takeWhile_cons,
      hk a (List.mem_cons_self a k2), ih rest
        (fun c hc => hk c (List.mem_cons_of_mem a hc)) hrest]
    simp

theorem split_key_eq_spec (k v : List Char) (hk : ∀ c ∈ k, c ≠ ' ') :
    split_key_eq (k ++ cl " = " ++ v) = some (k, v) := by
  unfold split_key_eq
  have h1 : (k ++ cl " = " ++ v).takeWhile (fun c => c ≠ ' ') = k := by
    have : k ++ cl " = " ++ v = k ++ (' ' :: ('=' :: ' ' :: v)) := by simp [cl]
    rw [this]
    exact takeWhile_append_stop (fun c => c ≠ ' ') k (' ' :: '=' :: ' ' :: v)
      (by intro c hc; simpa using hk c hc) (by simp)
  have h2 : (k ++ cl " = " ++ v).drop k.length = ' ' :: '=' :: ' ' :: v := by
    have : k ++ cl " = " ++ v = k ++ (' ' :: ('=' :: ' ' :: v)) := by simp [cl]
    rw [this, List.drop_left]
  simp only [h1, h2]

theorem parse_scalar_quoted (content : List Char) :
    parse_scalar ('"' :: (content ++ ['"'])) = some (.str content) := by
  have h : parse_scalar ('"' :: (content ++ ['"']))
      = if (content ++ ['"']).getLast? = some '"' then
          some (Toml.str (content ++ ['"']).dropLast) else none := rfl
  rw [h, if_pos (by simp)]
  simp

theorem parse_nat_go_digits :
    ∀ (l : List Char) (acc : Nat), (∀ c ∈ l, (char_to_digit c 10).isSome) →
      parse_nat_go l acc
        = some (l.foldl (fun a c => a * 10 + (char_to_digit c 10).getD 0) acc) := by
  intro l
  induction l with
  | nil => intro acc _; rfl
  | cons c cs ih =>
    intro acc hdig
    obtain ⟨d, hd⟩ := Option.isSome_iff_exists.mp (hdig c (List.mem_cons_self c cs))
    simp only [List.foldl_cons, hd, Option.getD_some]
    unfold parse_nat_go
    rw [hd]
    exact ih (acc * 10 + d) (fun x hx => hdig x (List.mem_cons_of_mem c hx))

theorem parse_int_scalar_fmt (n : Nat) (hn : n < 2 ^ 63) :
    parse_int_scalar (fmt_decimal n) = some (Int.ofNat n) := by
  by_cases h0 : n = 0
  · subst h0; decide
  · obtain ⟨d, tail, hdlt, hd0, heq⟩ :=
      radix_digits_head 10 hex_digit_char (by omega) n h0
    have hdig : ∀ c ∈ radix_digits 10 hex_digit_char n, (char_to_digit c 10).isSome := by
      intro c hc
      obtain ⟨e, he, rfl⟩ := radix_digits_mem 10 hex_digit_char (by omega) n c hc
      have hall : ∀ x, x < 10 → char_to_digit (hex_digit_char x) 10 = some x := by decide
      rw [hall e he]; rfl
    have hfold := digit_foldl_radix 10 hex_digit_char (by omega)
      (by intro d2 hd2; revert hd2; revert d2; decide) n 0
    simp only [Nat.zero_mul, Nat.zero_add] at hfold
    have hnat : parse_nat_digits (fmt_decimal n) = some n := by
      rw [fmt_decimal_eq n h0, heq]
      have : parse_nat_digits (hex_digit_char d :: tail)
          = parse_nat_go (hex_digit_char d :: tail) 0 := rfl
      rw [this, ← heq, parse_nat_go_digits _ 0 hdig, hfold]
    have hminus : hex_digit_char d ≠ '-' := by
      have hall : ∀ x, x < 10 → hex_digit_char x ≠ '-' := by decide
      exact hall d hdlt
    unfold parse_int_scalar
    rw [fmt_decimal_eq n h0, heq]
    split
    · rename_i heq2
      rw [List.cons.injEq] at heq2
      exact absurd heq2.1 hminus
    · rw [← heq, ← fmt_decimal_eq n h0, hnat]
      simp only
      rw [if_pos hn]
      rfl

theorem parse_scalar_not_quote (c : Char) (cs : List Char) (h : c ≠ '"') :
    parse_scalar (c :: cs) = (parse_int_scalar (c :: cs)).map .int := by
  unfold parse_scalar
  split
  · rename_i heq
    rw [List.cons.injEq] at heq
    exact absurd heq.1 h
  · rfl

theorem parse_scalar_fmt_decimal (n : Nat) (hn : n < 2 ^ 63) :
    parse_scalar (fmt_decimal n) = some (.int (Int.ofNat n)) := by
  by_cases h0 : n = 0
  · subst h0; rfl
  · obtain ⟨d, tail, hdlt, hd0, heq⟩ :=
      radix_digits_head 10 hex_digit_char (by omega) n h0
    have hquote : hex_digit_char d ≠ '"' := by
      have hall : ∀ x, x < 10 → hex_digit_char x ≠ '"' := by decide
      exact hall d hdlt
    rw [fmt_decimal_eq n h0, heq, parse_scalar_not_quote _ _ hquote, ← heq,
      ← fmt_decimal_eq n h0, parse_int_scalar_fmt n hn]
    rfl

theorem parse_array_elem_quoted (content : List Char) :
    parse_array_elem (cl "    \"" ++ content ++ cl "\",") = some (.str content) := by
  have hdrop : (cl "    \"" ++ content ++ cl "\",").dropWhile (fun c => c = ' ')
      = '"' :: (content ++ ['"', ',']) := by
    have h1 : cl "    \"" ++ content ++ cl "\","
        = ' ' :: ' ' :: ' ' :: ' ' :: '"' :: (content ++ ['"', ',']) := by
      simp [cl]
    rw [h1]
    simp [List.dropWhile_cons]
  unfold parse_array_elem
  rw [hdrop]
  have hlen : (content ++ ['"', ',']).length = content.length + 2 := by simp
  have hget : (content ++ ['"', ',']).drop ((content ++ ['"', ',']).length - 2)
      = ['"', ','] := by
    rw [hlen]
    simp only [Nat.add_sub_cancel]
    exact List.drop_left content ['"', ',']
  have htake : (content ++ ['"', ',']).take ((content ++ ['"', ',']).length - 2)
      = content := by
    rw [hlen]
    simp only [Nat.add_sub_cancel]
    exact List.take_left content ['"', ',']
  simp only
  rw [if_pos ⟨by omega, hget⟩, htake]

theorem toml_parse_lines_scalar (k v : List Char) (tv : Toml)
    (rest : List (List Char)) (es : TomlTable)
    (hk : ∀ c ∈ k, c ≠ ' ') (hk0 : k ≠ [])
    (hv : v ≠ ['[']) (htv : parse_scalar v = some tv)
    (hrest : toml_parse_lines none rest = .ok es) :
    toml_parse_lines none ((k ++ cl " = " ++ v) :: rest) = .ok ((k, tv) :: es) := by
  unfold toml_parse_lines
  have hne : (k ++ cl " = " ++ v).isEmpty = false := by
    cases k with
    | nil => exact absurd rfl hk0
    | cons a as => rfl
  rw [if_neg (by rw [hne]; exact fun h => Bool.noConfusion h)]
  rw [split_key_eq_spec k v hk]
  simp only
  rw [if_neg hv, htv]
  simp only
  rw [hrest]

theorem toml_parse_lines_in_array (k : List Char) (rest : List (List Char))
    (es : TomlTable) (hrest : toml_parse_lines none rest = .ok es) :
    ∀ (contents : List (List Char)) (acc : List Toml),
      toml_parse_lines (some (k, acc))
          ((contents.map (fun cnt => cl "    \"" ++ cnt ++ cl "\",")) ++ [']'] :: rest)
        = .ok ((k, .arr (acc ++ contents.map Toml.str)) :: es) := by
  intro contents
  induction contents with
  | nil =>
    intro acc
    simp only [List.map_nil, List.nil_append]
    unfold toml_parse_lines
    rw [if_pos rfl, hrest]
    simp
  | cons cnt more ih =>
    intro acc
    simp only [List.map_cons, List.cons_append]
    unfold toml_parse_lines
    rw [if_neg (by
      intro hcontra
      have : (cl "    \"" ++ cnt ++ cl "\",").length = ([']'] : List Char).length := by
        rw [hcontra]
      simp [cl] at this)]
    rw [parse_array_elem_quoted cnt]
    simp only
    rw [ih (acc ++ [Toml.str cnt])]
    simp

theorem toml_parse_lines_array (k : List Char) (rest : List (List Char))
    (es : TomlTable) (contents : List (List Char))
    (hk : ∀ c ∈ k, c ≠ ' ') (hk0 : k ≠ [])
    (hrest : toml_parse_lines none rest = .ok es) :
    toml_parse_lines none ((k ++ cl " = " ++ ['[']) ::
        ((contents.map (fun cnt => cl "    \"" ++ cnt ++ cl "\",")) ++ [']'] :: rest))
      = .ok ((k, .arr (contents.map Toml.str)) :: es) := by
  unfold toml_parse_lines
  have hne : (k ++ cl " = " ++ ['[']).isEmpty = false := by
    cases k with
    | nil => exact absurd rfl hk0
    | cons a as => rfl
  rw [if_neg (by rw [hne]; exact fun h => Bool.noConfusion h)]
  rw [split_key_eq_spec k ['['] hk]
  simp only
  rw [if_pos trivial]
  have := toml_parse_lines_in_array k rest es hrest contents []
  simpa using this

theorem toml_parse_lines_end : toml_parse_lines none [[]] = .ok [] := rfl

theorem fmt_decimal_chars (n : Nat) :
    ∀ c ∈ fmt_decimal n, ∃ d, d < 10 ∧ c = hex_digit_char d := by
  intro c hc
  by_cases h0 : n = 0
  · subst h0
    rcases List.mem_singleton.mp hc with rfl
    exact ⟨0, by omega, rfl⟩
  · rw [fmt_decimal_eq n h0] at hc
    exact radix_digits_mem 10 hex_digit_char (by omega) n c hc

theorem fmt_lower_hex_chars (n : Nat) :
    ∀ c ∈ fmt_lower_hex n, ∃ d, d < 16 ∧ c = hex_digit_char d := by
  intro c hc
  by_cases h0 : n = 0
  · subst h0
    rcases List.mem_singleton.mp hc with rfl
    exact ⟨0, by omega, rfl⟩
  · rw [fmt_lower_hex_eq n h0] at hc
    exact radix_digits_mem 16 hex_digit_char (by omega) n c hc

theorem fmt_decimal_no_nl (n : Nat) : '\n' ∉ fmt_decimal n := by
  intro hc
  obtain ⟨d, hd, heq⟩ := fmt_decimal_chars n '\n' hc
  have : ∀ x, x < 10 → hex_digit_char x ≠ '\n' := by decide
  exact this d hd heq.symm

theorem fmt_lower_hex_no_nl (n : Nat) : '\n' ∉ fmt_lower_hex n := by
  intro hc
  obtain ⟨d, hd, heq⟩ := fmt_lower_hex_chars n '\n' hc
  have : ∀ x, x < 16 → hex_digit_char x ≠ '\n' := by decide
  exact this d hd heq.symm

theorem display_ipv4_no_nl (a : Ipv4Addr) : '\n' ∉ display_ipv4 a := by
  have step : ∀ (X Y : List Char), '\n' ∉ X → '\n' ∉ Y → '\n' ∉ X ++ '.' :: Y := by
    intro X Y hX hY hc
    rcases List.mem_append.mp hc with h | h
    · exact hX h
    · rcases List.mem_cons.mp h with h2 | h2
      · exact absurd h2 (by decide)
      · exact hY h2
  have hshape : display_ipv4 a = fmt_decimal a.o0 ++ '.' :: (fmt_decimal a.o1
      ++ '.' :: (fmt_decimal a.o2 ++ '.' :: fmt_decimal a.o3)) := by
    unfold display_ipv4
    simp [List.append_assoc]
  rw [hshape]
  exact step _ _ (fmt_decimal_no_nl a.o0)
    (step _ _ (fmt_decimal_no_nl a.o1)
      (step _ _ (fmt_decimal_no_nl a.o2) (fmt_decimal_no_nl a.o3)))

theorem fmt_decimal_ne_lbracket (n : Nat) : fmt_decimal n ≠ ['['] := by
  intro heq
  have : '[' ∈ fmt_decimal n := by rw [heq]; exact List.mem_singleton.mpr rfl
  obtain ⟨d, hd, hc⟩ := fmt_decimal_chars n '[' this
  have : ∀ x, x < 10 → hex_digit_char x ≠ '[' := by decide
  exact this d hd hc.symm

theorem parse_salt_fmt_lower (n : Nat) (hn : n < u128_BOUND) :
    parse_salt (.str (cl "0x" ++ fmt_lower_hex n)) = .ok n := by
  have hdig : ∀ d, d < 16 → char_to_digit (hex_digit_char d) 16 = some d := by decide
  have hne : ∀ d, d < 16 → d ≠ 0 → hex_digit_char d ≠ '0' := by decide
  have := parse_salt_hex_digits hex_digit_char hdig hne n hn
  by_cases h0 : n = 0
  · subst h0
    simpa using this
  · rw [fmt_lower_hex_eq n h0]
    rw [if_neg h0] at this
    exact this

theorem parse_salt_fmt_upper (n : Nat) (hn : n < u128_BOUND) :
    parse_salt (.str (cl "0x" ++ fmt_upper_hex n)) = .ok n := by
  have hdig : ∀ d, d < 16 → char_to_digit (hex_digit_char_upper d) 16 = some d := by
    decide
  have hne : ∀ d, d < 16 → d ≠ 0 → hex_digit_char_upper d ≠ '0' := by decide
  have := parse_salt_hex_digits hex_digit_char_upper hdig hne n hn
  by_cases h0 : n = 0
  · subst h0
    simpa using this
  · rw [fmt_upper_hex_eq n h0]
    rw [if_neg h0] at this
    exact this

theorem collect_results_salts (salts : List Nat)
    (hb : ∀ v ∈ salts, v < u128_BOUND) :
    collect_results parse_salt
        ((salts.map (fun v => cl "0x" ++ fmt_lower_hex v)).map Toml.str)
      = .ok salts := by
  induction salts with
  | nil => rfl
  | cons v vs ih =>
    simp only [List.map_cons]
    unfold collect_results
    rw [parse_salt_fmt_lower v (hb v (List.mem_cons_self v vs)),
      ih (fun x hx => hb x (List.mem_cons_of_mem v hx))]

theorem addr_ff_loop_map {α : Type} (parseA : List Char → Option α)
    (dispA : α → List Char) (key : List Char) (l : List α)
    (hrt : ∀ a ∈ l, parseA (dispA a) = some a) :
    addr_ff_loop parseA key ((l.map dispA).map Toml.str) = .ok l := by
  induction l with
  | nil => rfl
  | cons a as ih =>
    simp only [List.map_cons]
    simp only [addr_ff_loop, hrt a (List.mem_cons_self a as),
      ih (fun x hx => hrt x (List.mem_cons_of_mem a hx))]

theorem no_nl_append (X Y : List Char) (hX : '\n' ∉ X) (hY : '\n' ∉ Y) :
    '\n' ∉ X ++ Y := by
  intro h
  rcases List.mem_append.mp h with h | h
  · exact hX h
  · exact hY h

theorem no_nl_cons (c : Char) (X : List Char) (hc : c ≠ '\n') (hX : '\n' ∉ X) :
    '\n' ∉ c :: X := by
  intro h
  rcases List.mem_cons.mp h with h | h
  · exact hc h.symm
  · exact hX h

theorem no_nl_wrapped {α : Type} (f : α → List Char) (l : List α)
    (hf : ∀ a ∈ l, '\n' ∉ f a) :
    ∀ x ∈ (l.map f).map (fun cnt => cl "    \"" ++ cnt ++ cl "\","), '\n' ∉ x := by
  intro x hx
  simp only [List.map_map, List.mem_map, Function.comp_def] at hx
  obtain ⟨a, ha, rfl⟩ := hx
  exact no_nl_append _ _ (no_nl_append _ _ (by decide) (hf a ha)) (by decide)

theorem parse_tail_entries (g : List Char) (si ts : Nat)
    (hsi : si < 2 ^ 63) (hts : ts < 2 ^ 63) :
    toml_parse_lines none
        [cl "gpg_key_public" ++ cl " = " ++ ('"' :: (g ++ ['"'])),
         cl "sync_interval" ++ cl " = " ++ fmt_decimal si,
         cl "updated_at_timestamp" ++ cl " = " ++ fmt_decimal ts,
         []]
      = .ok [(cl "gpg_key_public", .str g),
             (cl "sync_interval", .int (Int.ofNat si)),
             (cl "updated_at_timestamp", .int (Int.ofNat ts))] := by
  have h1 : toml_parse_lines none [[]] = .ok [] := toml_parse_lines_end
  have h2 := toml_parse_lines_scalar (cl "updated_at_timestamp") (fmt_decimal ts)
    (.int (Int.ofNat ts)) [[]] [] (by decide) (by decide)
    (fmt_decimal_ne_lbracket ts) (parse_scalar_fmt_decimal ts hts) h1
  have h3 := toml_parse_lines_scalar (cl "sync_interval") (fmt_decimal si)
    (.int (Int.ofNat si))
    ((cl "updated_at_timestamp" ++ cl " = " ++ fmt_decimal ts) :: [[]])
    [(cl "updated_at_timestamp", .int (Int.ofNat ts))] (by decide) (by decide)
    (fmt_decimal_ne_lbracket si) (parse_scalar_fmt_decimal si hsi) h2
  have h4 := toml_parse_lines_scalar (cl "gpg_key_public") ('"' :: (g ++ ['"']))
    (.str g)
    ((cl "sync_interval" ++ cl " = " ++ fmt_decimal si) ::
      (cl "updated_at_timestamp" ++ cl " = " ++ fmt_decimal ts) :: [[]])
    [(cl "sync_interval", .int (Int.ofNat si)),
     (cl "updated_at_timestamp", .int (Int.ofNat ts))] (by decide) (by decide)
    (by intro h; rw [List.cons.injEq] at h; exact absurd h.1 (by decide))
    (parse_scalar_quoted g) h3
  exact h4

theorem read_text_assembled
    (parse6 : List Char → Option Ipv6Addr)
    (name g : List Char) (salts : List Nat) (si ts : Nat)
    (text4 text6 : List Char) (seg4 seg6 : List (List Char)) (ent4 ent6 : TomlTable)
    (rec : CollaboratorTomlData)
    (hname : '\n' ∉ name) (hg : '\n' ∉ g)
    (htext4 : text4 = (seg4.map (fun l => l ++ ['\n'])).flatten)
    (htext6 : text6 = (seg6.map (fun l => l ++ ['\n'])).flatten)
    (hnl4 : ∀ l ∈ seg4, '\n' ∉ l) (hnl6 : ∀ l ∈ seg6, '\n' ∉ l)
    (hcont4 : ∀ (rest : List (List Char)) (es : TomlTable),
      toml_parse_lines none rest = .ok es →
      toml_parse_lines none (seg4 ++ rest) = .ok (ent4 ++ es))
    (hcont6 : ∀ (rest : List (List Char)) (es : TomlTable),
      toml_parse_lines none rest = .ok es →
      toml_parse_lines none (seg6 ++ rest) = .ok (ent6 ++ es))
    (hsi : si < 2 ^ 63) (hts : ts < 2 ^ 63)
    (hdecode : DeserializeOneFile.read_one_collaborator_setup_toml parse_ipv4 parse6
      (.table ((cl "user_name", .str name) ::
               (cl "user_salt_list", .arr
                 ((salts.map (fun v => cl "0x" ++ fmt_lower_hex v)).map Toml.str)) ::
               (ent4 ++ ent6 ++
                [(cl "gpg_key_public", .str g),
                 (cl "sync_interval", .int (Int.ofNat si)),
                 (cl "updated_at_timestamp", .int (Int.ofNat ts))])))
      = .ok rec) :
    DeserializeOneFile.read_one_collaborator_setup_toml_text parse_ipv4 parse6
      (cl "user_name = \"" ++ name ++ cl "\"\n"
        ++ cl "user_salt_list = [\n"
        ++ (salts.map (fun salt =>
              cl "    \"0x" ++ fmt_lower_hex salt ++ cl "\",\n")).flatten
        ++ cl "]\n" ++ text4 ++ text6
        ++ cl "gpg_key_public = \"" ++ g ++ cl "\"\n"
        ++ cl "sync_interval = " ++ fmt_decimal si ++ cl "\n"
        ++ cl "updated_at_timestamp = " ++ fmt_decimal ts ++ cl "\n")
      = .ok rec := by
  subst htext4 htext6
  have e1 : cl "user_name = \"" = cl "user_name" ++ cl " = " ++ ['"'] := rfl
  have e2 : cl "\"\n" = ['"', '\n'] := rfl
  have e3 : cl "user_salt_list = [\n"
      = cl "user_salt_list" ++ cl " = " ++ ['[', '\n'] := rfl
  have e4 : cl "    \"0x" = cl "    \"" ++ cl "0x" := rfl
  have e5 : cl "\",\n" = ['"', ',', '\n'] := rfl
  have e6 : cl "]\n" = [']', '\n'] := rfl
  have e7 : cl "gpg_key_public = \""
      = cl "gpg_key_public" ++ cl " = " ++ ['"'] := rfl
  have e8 : cl "sync_interval = " = cl "sync_interval" ++ cl " = " := rfl
  have e9 : cl "updated_at_timestamp = "
      = cl "updated_at_timestamp" ++ cl " = " := rfl
  have e10 : cl "\n" = ['\n'] := rfl
  have e11 : cl "\"," = ['"', ','] := rfl
  have hnl : ∀ l ∈ ((cl "user_name" ++ cl " = " ++ ('"' :: (name ++ ['"']))) ::
      (cl "user_salt_list" ++ cl " = " ++ ['[']) ::
      ((salts.map (fun v => cl "0x" ++ fmt_lower_hex v)).map
          (fun cnt => cl "    \"" ++ cnt ++ cl "\",") ++
        [']'] :: (seg4 ++ seg6 ++
          [cl "gpg_key_public" ++ cl " = " ++ ('"' :: (g ++ ['"'])),
           cl "sync_interval" ++ cl " = " ++ fmt_decimal si,
           cl "updated_at_timestamp" ++ cl " = " ++ fmt_decimal ts]))),
      '\n' ∉ l := by
    intro l hl
    rcases List.mem_cons.mp hl with rfl | hl
    · exact no_nl_append _ _ (no_nl_append _ _ (by decide) (by decide))
        (no_nl_cons _ _ (by decide) (no_nl_append _ _ hname (by decide)))
    rcases List.mem_cons.mp hl with rfl | hl
    · decide
    rcases List.mem_append.mp hl with hl | hl
    · exact no_nl_wrapped _ salts
        (fun v _ => no_nl_append _ _ (by decide) (fmt_lower_hex_no_nl v)) l hl
    rcases List.mem_cons.mp hl with rfl | hl
    · decide
    rcases List.mem_append.mp hl with hl | hl
    · rcases List.mem_append.mp hl with hl | hl
      · exact hnl4 l hl
      · exact hnl6 l hl
    rcases List.mem_cons.mp hl with rfl | hl
    · exact no_nl_append _ _ (no_nl_append _ _ (by decide) (by decide))
        (no_nl_cons _ _ (by decide) (no_nl_append _ _ hg (by decide)))
    rcases List.mem_cons.mp hl with rfl | hl
    · exact no_nl_append _ _ (by decide) (fmt_decimal_no_nl si)
    rcases List.mem_cons.mp hl with rfl | hl
    · exact no_nl_append _ _ (by decide) (fmt_decimal_no_nl ts)
    cases hl
  have hsplit : split_lines
      (cl "user_name = \"" ++ name ++ cl "\"\n"
        ++ cl "user_salt_list = [\n"
        ++ (salts.map (fun salt =>
              cl "    \"0x" ++ fmt_lower_hex salt ++ cl "\",\n")).flatten
        ++ cl "]\n" ++ (seg4.map (fun l => l ++ ['\n'])).flatten
        ++ (seg6.map (fun l => l ++ ['\n'])).flatten
        ++ cl "gpg_key_public = \"" ++ g ++ cl "\"\n"
        ++ cl "sync_interval = " ++ fmt_decimal si ++ cl "\n"
        ++ cl "updated_at_timestamp = " ++ fmt_decimal ts ++ cl "\n")
      = ((cl "user_name" ++ cl " = " ++ ('"' :: (name ++ ['"']))) ::
         (cl "user_salt_list" ++ cl " = " ++ ['[']) ::
         ((salts.map (fun v => cl "0x" ++ fmt_lower_hex v)).map
             (fun cnt => cl "    \"" ++ cnt ++ cl "\",") ++
           [']'] :: (seg4 ++ seg6 ++
             [cl "gpg_key_public" ++ cl " = " ++ ('"' :: (g ++ ['"'])),
              cl "sync_interval" ++ cl " = " ++ fmt_decimal si,
              cl "updated_at_timestamp" ++ cl " = " ++ fmt_decimal ts])))
        ++ [[]] := by
    have hP : cl "user_name = \"" ++ name ++ cl "\"\n"
        ++ cl "user_salt_list = [\n"
        ++ (salts.map (fun salt =>
              cl "    \"0x" ++ fmt_lower_hex salt ++ cl "\",\n")).flatten
        ++ cl "]\n" ++ (seg4.map (fun l => l ++ ['\n'])).flatten
        ++ (seg6.map (fun l => l ++ ['\n'])).flatten
        ++ cl "gpg_key_public = \"" ++ g ++ cl "\"\n"
        ++ cl "sync_interval = " ++ fmt_decimal si ++ cl "\n"
        ++ cl "updated_at_timestamp = " ++ fmt_decimal ts ++ cl "\n"
      = ((((cl "user_name" ++ cl " = " ++ ('"' :: (name ++ ['"']))) ::
         (cl "user_salt_list" ++ cl " = " ++ ['[']) ::
         ((salts.map (fun v => cl "0x" ++ fmt_lower_hex v)).map
             (fun cnt => cl "    \"" ++ cnt ++ cl "\",") ++
           [']'] :: (seg4 ++ seg6 ++
             [cl "gpg_key_public" ++ cl " = " ++ ('"' :: (g ++ ['"'])),
              cl "sync_interval" ++ cl " = " ++ fmt_decimal si,
              cl "updated_at_timestamp" ++ cl " = " ++ fmt_decimal ts]))).map
          (fun l => l ++ ['\n'])).flatten) := by
      simp only [e1, e2, e3, e4, e5, e6, e7, e8, e9, e10, e11,
        List.map_map, List.map_cons, List.map_append, List.map_nil,
        List.flatten_cons, List.flatten_append, List.flatten_nil,
        Function.comp_def, List.append_assoc, List.cons_append, List.nil_append,
        List.append_nil, List.singleton_append]
    rw [hP]
    exact split_lines_flatten _ hnl
  have htail := parse_tail_entries g si ts hsi hts
  have h6blk := hcont6
    [cl "gpg_key_public" ++ cl " = " ++ ('"' :: (g ++ ['"'])),
     cl "sync_interval" ++ cl " = " ++ fmt_decimal si,
     cl "updated_at_timestamp" ++ cl " = " ++ fmt_decimal ts,
     []] _ htail
  have h4blk := hcont4 _ _ h6blk
  have hsaltblk := toml_parse_lines_array (cl "user_salt_list")
    (seg4 ++ (seg6 ++
      [cl "gpg_key_public" ++ cl " = " ++ ('"' :: (g ++ ['"'])),
       cl "sync_interval" ++ cl " = " ++ fmt_decimal si,
       cl "updated_at_timestamp" ++ cl " = " ++ fmt_decimal ts,
       []]))
    (ent4 ++ (ent6 ++
      [(cl "gpg_key_public", .str g),
       (cl "sync_interval", .int (Int.ofNat si)),
       (cl "updated_at_timestamp", .int (Int.ofNat ts))]))
    (salts.map (fun v => cl "0x" ++ fmt_lower_hex v))
    (by decide) (by decide) (by simpa [List.append_assoc] using h4blk)
  have htop := toml_parse_lines_scalar (cl "user_name")
    ('"' :: (name ++ ['"'])) (.str name)
    ((cl "user_salt_list" ++ cl " = " ++ ['[']) ::
      ((salts.map (fun v => cl "0x" ++ fmt_lower_hex v)).map
          (fun cnt => cl "    \"" ++ cnt ++ cl "\",") ++
        [']'] :: (seg4 ++ (seg6 ++
          [cl "gpg_key_public" ++ cl " = " ++ ('"' :: (g ++ ['"'])),
           cl "sync_interval" ++ cl " = " ++ fmt_decimal si,
           cl "updated_at_timestamp" ++ cl " = " ++ fmt_decimal ts,
           []]))))
    ((cl "user_salt_list", .arr
        ((salts.map (fun v => cl "0x" ++ fmt_lower_hex v)).map Toml.str)) ::
      (ent4 ++ (ent6 ++
        [(cl "gpg_key_public", .str g),
         (cl "sync_interval", .int (Int.ofNat si)),
         (cl "updated_at_timestamp", .int (Int.ofNat ts))])))
    (by decide) (by decide)
    (by intro h; rw [List.cons.injEq] at h; exact absurd h.1 (by decide))
    (parse_scalar_quoted name) hsaltblk
  unfold DeserializeOneFile.read_one_collaborator_setup_toml_text toml_from_str
  rw [hsplit]
  have halign : ((cl "user_name" ++ cl " = " ++ ('"' :: (name ++ ['"']))) ::
      (cl "user_salt_list" ++ cl " = " ++ ['[']) ::
      ((salts.map (fun v => cl "0x" ++ fmt_lower_hex v)).map
          (fun cnt => cl "    \"" ++ cnt ++ cl "\",") ++
        [']'] :: (seg4 ++ seg6 ++
          [cl "gpg_key_public" ++ cl " = " ++ ('"' :: (g ++ ['"'])),
           cl "sync_interval" ++ cl " = " ++ fmt_decimal si,
           cl "updated_at_timestamp" ++ cl " = " ++ fmt_decimal ts])))
      ++ [[]]
      = (cl "user_name" ++ cl " = " ++ ('"' :: (name ++ ['"']))) ::
        ((cl "user_salt_list" ++ cl " = " ++ ['[']) ::
        ((salts.map (fun v => cl "0x" ++ fmt_lower_hex v)).map
            (fun cnt => cl "    \"" ++ cnt ++ cl "\",") ++
          [']'] :: (seg4 ++ (seg6 ++
            [cl "gpg_key_public" ++ cl " = " ++ ('"' :: (g ++ ['"'])),
             cl "sync_interval" ++ cl " = " ++ fmt_decimal si,
             cl "updated_at_timestamp" ++ cl " = " ++ fmt_decimal ts,
             []])))) := by
    simp [List.cons_append, List.append_assoc]
  rw [halign, htop]
  have hfinal : (ent4 ++ (ent6 ++
      [(cl "gpg_key_public", Toml.str g),
       (cl "sync_interval", Toml.int (Int.ofNat si)),
       (cl "updated_at_timestamp", Toml.int (Int.ofNat ts))]))
      = (ent4 ++ ent6 ++
      [(cl "gpg_key_public", Toml.str g),
       (cl "sync_interval", Toml.int (Int.ofNat si)),
       (cl "updated_at_timestamp", Toml.int (Int.ofNat ts))]) := by
    simp [List.append_assoc]
  simp only [hfinal]
  exact hdecode

theorem addr_seg_text {α : Type} (disp : α → List Char) (key : List Char) (l : List α) :
    key ++ cl " = [\n"
      ++ (l.map (fun addr => cl "    \"" ++ disp addr ++ cl "\",\n")).flatten
      ++ cl "]\n"
    = ((((key ++ cl " = " ++ ['[']) ::
        ((l.map disp).map (fun cnt => cl "    \"" ++ cnt ++ cl "\",") ++ [[']']])).map
          (fun ln => ln ++ ['\n'])).flatten) := by
  have f1 : cl " = [\n" = cl " = " ++ ['[', '\n'] := rfl
  have f2 : cl "\",\n" = ['"', ',', '\n'] := rfl
  have f3 : cl "\"," = ['"', ','] := rfl
  have f4 : cl "]\n" = [']', '\n'] := rfl
  simp only [f1, f2, f3, f4,
    List.map_map, List.map_cons, List.map_append, List.map_nil,
    List.flatten_cons, List.flatten_append, List.flatten_nil,
    Function.comp_def, List.append_assoc, List.cons_append, List.nil_append,
    List.append_nil, List.singleton_append]

theorem addr_seg_nl {α : Type} (disp : α → List Char) (key : List Char) (l : List α)
    (hkey : '\n' ∉ key) (hdisp : ∀ a ∈ l, '\n' ∉ disp a) :
    ∀ x ∈ (key ++ cl " = " ++ ['[']) ::
        ((l.map disp).map (fun cnt => cl "    \"" ++ cnt ++ cl "\",") ++ [[']']]),
      '\n' ∉ x := by
  intro x hx
  rcases List.mem_cons.mp hx with rfl | hx
  · exact no_nl_append _ _ (no_nl_append _ _ hkey (by decide)) (by decide)
  rcases List.mem_append.mp hx with hx | hx
  · exact no_nl_wrapped disp l hdisp x hx
  · rcases List.mem_singleton.mp hx with rfl
    decide

theorem addr_seg_cont {α : Type} (disp : α → List Char) (key : List Char) (l : List α)
    (hk : ∀ c ∈ key, c ≠ ' ') (hk0 : key ≠ []) :
    ∀ (rest : List (List Char)) (es : TomlTable),
      toml_parse_lines none rest = .ok es →
      toml_parse_lines none (((key ++ cl " = " ++ ['[']) ::
          ((l.map disp).map (fun cnt => cl "    \"" ++ cnt ++ cl "\",") ++ [[']']]))
          ++ rest)
        = .ok ([(key, .arr ((l.map disp).map Toml.str))] ++ es) := by
  intro rest es h
  have := toml_parse_lines_array key rest es (l.map disp) hk hk0 h
  simpa [List.append_assoc] using this

theorem extract_u64_int_ofNat (tbl : TomlTable) (key : List Char) (n : Nat)
    (hn : n < 2 ^ 63) (ht : tget tbl key = some (.int (Int.ofNat n))) :
    extract_u64 tbl key = .ok n := by
  have hpow : (2 : Nat) ^ 63 = 9223372036854775808 := by norm_num
  simp only [extract_u64, ht]
  rw [if_pos ⟨Int.natCast_nonneg n, by
    show (Int.ofNat n) ≤ i64_MAX
    unfold i64_MAX
    rw [Int.ofNat_eq_natCast]
    have : n ≤ 9223372036854775807 := by omega
    exact_mod_cast this⟩]
  simp

theorem extract_addresses_ff_map {α : Type} (parseA : List Char → Option α)
    (dispA : α → List Char) (tbl : TomlTable) (key : List Char) (l : List α)
    (hne : l ≠ [])
    (ht : tget tbl key = some (.arr ((l.map dispA).map Toml.str)))
    (hrt : ∀ a ∈ l, parseA (dispA a) = some a) :
    extract_addresses_failfast parseA tbl key = .ok (some l) := by
  simp only [extract_addresses_failfast, ht,
    addr_ff_loop_map parseA dispA key l hrt]
  have hempty : l.isEmpty = false := by
    cases l with
    | nil => exact absurd rfl hne
    | cons a as => rfl
  rw [hempty]
  rfl

theorem decode_assembled
    (parse6 : List Char → Option Ipv6Addr)
    (name g : List Char) (salts : List Nat) (si ts : Nat)
    (ent4 ent6 : TomlTable)
    (i4val : Option (List Ipv4Addr)) (i6val : Option (List Ipv6Addr))
    (hsalts : ∀ v ∈ salts, v < u128_BOUND)
    (hf3 : extract_addresses_failfast parse_ipv4
      ((cl "user_name", .str name) ::
       (cl "user_salt_list", .arr
         ((salts.map (fun v => cl "0x" ++ fmt_lower_hex v)).map Toml.str)) ::
       (ent4 ++ ent6 ++
        [(cl "gpg_key_public", .str g),
         (cl "sync_interval", .int (Int.ofNat si)),
         (cl "updated_at_timestamp", .int (Int.ofNat ts))]))
      (cl "ipv4_addresses") = .ok i4val)
    (hf4 : extract_addresses_failfast parse6
      ((cl "user_name", .str name) ::
       (cl "user_salt_list", .arr
         ((salts.map (fun v => cl "0x" ++ fmt_lower_hex v)).map Toml.str)) ::
       (ent4 ++ ent6 ++
        [(cl "gpg_key_public", .str g),
         (cl "sync_interval", .int (Int.ofNat si)),
         (cl "updated_at_timestamp", .int (Int.ofNat ts))]))
      (cl "ipv6_addresses") = .ok i6val)
    (hf5 : extract_gpg_key_public
      ((cl "user_name", .str name) ::
       (cl "user_salt_list", .arr
         ((salts.map (fun v => cl "0x" ++ fmt_lower_hex v)).map Toml.str)) ::
       (ent4 ++ ent6 ++
        [(cl "gpg_key_public", .str g),
         (cl "sync_interval", .int (Int.ofNat si)),
         (cl "updated_at_timestamp", .int (Int.ofNat ts))])) = .ok g)
    (hf6 : extract_u64
      ((cl "user_name", .str name) ::
       (cl "user_salt_list", .arr
         ((salts.map (fun v => cl "0x" ++ fmt_lower_hex v)).map Toml.str)) ::
       (ent4 ++ ent6 ++
        [(cl "gpg_key_public", .str g),
         (cl "sync_interval", .int (Int.ofNat si)),
         (cl "updated_at_timestamp", .int (Int.ofNat ts))]))
      (cl "sync_interval") = .ok si)
    (hf7 : extract_u64
      ((cl "user_name", .str name) ::
       (cl "user_salt_list", .arr
         ((salts.map (fun v => cl "0x" ++ fmt_lower_hex v)).map Toml.str)) ::
       (ent4 ++ ent6 ++
        [(cl "gpg_key_public", .str g),
         (cl "sync_interval", .int (Int.ofNat si)),
         (cl "updated_at_timestamp", .int (Int.ofNat ts))]))
      (cl "updated_at_timestamp") = .ok ts) :
    DeserializeOneFile.read_one_collaborator_setup_toml parse_ipv4 parse6
      (.table ((cl "user_name", .str name) ::
       (cl "user_salt_list", .arr
         ((salts.map (fun v => cl "0x" ++ fmt_lower_hex v)).map Toml.str)) ::
       (ent4 ++ ent6 ++
        [(cl "gpg_key_public", .str g),
         (cl "sync_interval", .int (Int.ofNat si)),
         (cl "updated_at_timestamp", .int (Int.ofNat ts))])))
      = .ok { user_name := name, user_salt_list := salts,
              ipv4_addresses := i4val, ipv6_addresses := i6val,
              gpg_key_public := g, sync_interval := si,
              updated_at_timestamp := ts } := by
  have hf1 : extract_user_name
      ((cl "user_name", .str name) ::
       (cl "user_salt_list", .arr
         ((salts.map (fun v => cl "0x" ++ fmt_lower_hex v)).map Toml.str)) ::
       (ent4 ++ ent6 ++
        [(cl "gpg_key_public", .str g),
         (cl "sync_interval", .int (Int.ofNat si)),
         (cl "updated_at_timestamp", .int (Int.ofNat ts))])) = .ok name := rfl
  have hf2 : extract_user_salt_list
      ((cl "user_name", .str name) ::
       (cl "user_salt_list", .arr
         ((salts.map (fun v => cl "0x" ++ fmt_lower_hex v)).map Toml.str)) ::
       (ent4 ++ ent6 ++
        [(cl "gpg_key_public", .str g),
         (cl "sync_interval", .int (Int.ofNat si)),
         (cl "updated_at_timestamp", .int (Int.ofNat ts))])) = .ok salts := by
    have ht : tget
        ((cl "user_name", .str name) ::
         (cl "user_salt_list", .arr
           ((salts.map (fun v => cl "0x" ++ fmt_lower_hex v)).map Toml.str)) ::
         (ent4 ++ ent6 ++
          [(cl "gpg_key_public", .str g),
           (cl "sync_interval", .int (Int.ofNat si)),
           (cl "updated_at_timestamp", .int (Int.ofNat ts))]))
        (cl "user_salt_list")
        = some (.arr ((salts.map (fun v => cl "0x" ++ fmt_lower_hex v)).map Toml.str)) :=
      rfl
    simp only [extract_user_salt_list, ht]
    exact collect_results_salts salts hsalts
  exact read_one_ok parse_ipv4 parse6 _ name salts i4val i6val g si ts
    hf1 hf2 hf3 hf4 hf5 hf6 hf7

theorem read_text_of_serialize
    (disp6 : Ipv6Addr → List Char) (parse6 : List Char → Option Ipv6Addr)
    (name g : List Char) (salts : List Nat)
    (i4 : Option (List Ipv4Addr)) (i6 : Option (List Ipv6Addr)) (si ts : Nat)
    (s : List Char)
    (hname : '\n' ∉ name) (hg : '\n' ∉ g)
    (hsalts : ∀ v ∈ salts, v < u128_BOUND)
    (hsi : si < 2 ^ 63) (hts : ts < 2 ^ 63)
    (hi4 : ∀ l, i4 = some l → l ≠ [] ∧ ∀ a ∈ l,
      a.o0 ≤ 255 ∧ a.o1 ≤ 255 ∧ a.o2 ≤ 255 ∧ a.o3 ≤ 255)
    (hi6 : ∀ l, i6 = some l → l ≠ [] ∧ ∀ a ∈ l,
      parse6 (disp6 a) = some a ∧ '\n' ∉ disp6 a)
    (hs : SerializeToToml.serialize_collaborator_to_toml display_ipv4 disp6
      { user_name := name, user_salt_list := salts, ipv4_addresses := i4,
        ipv6_addresses := i6, gpg_key_public := g, sync_interval := si,
        updated_at_timestamp := ts } = .ok s) :
    DeserializeOneFile.read_one_collaborator_setup_toml_text parse_ipv4 parse6 s
      = .ok { user_name := name, user_salt_list := salts, ipv4_addresses := i4,
              ipv6_addresses := i6, gpg_key_public := g, sync_interval := si,
              updated_at_timestamp := ts } := by
  simp only [SerializeToToml.serialize_collaborator_to_toml, Except.ok.injEq] at hs
  subst hs
  cases i4 with
  | none =>
    cases i6 with
    | none =>
      exact read_text_assembled parse6 name g salts si ts
        (SerializeToToml.serialize_ip_addresses display_ipv4 (cl "ipv4_addresses") none)
        (SerializeToToml.serialize_ip_addresses disp6 (cl "ipv6_addresses") none)
        [] [] [] [] _ hname hg rfl rfl
        (by intro l hl; simp at hl) (by intro l hl; simp at hl)
        (by intro rest es h; simpa using h) (by intro rest es h; simpa using h)
        hsi hts
        (decode_assembled parse6 name g salts si ts [] [] none none hsalts
          rfl rfl rfl
          (extract_u64_int_ofNat _ _ si hsi rfl)
          (extract_u64_int_ofNat _ _ ts hts rfl))
    | some l6 =>
      obtain ⟨hne6, hprop6⟩ := hi6 l6 rfl
      exact read_text_assembled parse6 name g salts si ts
        (SerializeToToml.serialize_ip_addresses display_ipv4 (cl "ipv4_addresses") none)
        (SerializeToToml.serialize_ip_addresses disp6 (cl "ipv6_addresses") (some l6))
        []
        ((cl "ipv6_addresses" ++ cl " = " ++ ['[']) ::
          ((l6.map disp6).map (fun cnt => cl "    \"" ++ cnt ++ cl "\",") ++ [[']']]))
        []
        [(cl "ipv6_addresses", .arr ((l6.map disp6).map Toml.str))]
        _ hname hg rfl
        (addr_seg_text disp6 (cl "ipv6_addresses") l6)
        (by intro l hl; simp at hl)
        (addr_seg_nl disp6 (cl "ipv6_addresses") l6 (by decide)
          (fun a ha => (hprop6 a ha).2))
        (by intro rest es h; simpa using h)
        (addr_seg_cont disp6 (cl "ipv6_addresses") l6 (by decide) (by decide))
        hsi hts
        (decode_assembled parse6 name g salts si ts []
          [(cl "ipv6_addresses", .arr ((l6.map disp6).map Toml.str))]
          none (some l6) hsalts
          rfl
          (extract_addresses_ff_map parse6 disp6 _ _ l6 hne6 rfl
            (fun a ha => (hprop6 a ha).1))
          rfl
          (extract_u64_int_ofNat _ _ si hsi rfl)
          (extract_u64_int_ofNat _ _ ts hts rfl))
  | some l4 =>
    obtain ⟨hne4, hbd4⟩ := hi4 l4 rfl
    have hrt4 : ∀ a ∈ l4, parse_ipv4 (display_ipv4 a) = some a := by
      intro a ha
      obtain ⟨h0, h1, h2, h3⟩ := hbd4 a ha
      exact parse_ipv4_display a h0 h1 h2 h3
    cases i6 with
    | none =>
      exact read_text_assembled parse6 name g salts si ts
        (SerializeToToml.serialize_ip_addresses display_ipv4 (cl "ipv4_addresses")
          (some l4))
        (SerializeToToml.serialize_ip_addresses disp6 (cl "ipv6_addresses") none)
        ((cl "ipv4_addresses" ++ cl " = " ++ ['[']) ::
          ((l4.map display_ipv4).map (fun cnt => cl "    \"" ++ cnt ++ cl "\",")
            ++ [[']']]))
        []
        [(cl "ipv4_addresses", .arr ((l4.map display_ipv4).map Toml.str))]
        []
        _ hname hg
        (addr_seg_text display_ipv4 (cl "ipv4_addresses") l4)
        rfl
        (addr_seg_nl display_ipv4 (cl "ipv4_addresses") l4 (by decide)
          (fun a _ => display_ipv4_no_nl a))
        (by intro l hl; simp at hl)
        (addr_seg_cont display_ipv4 (cl "ipv4_addresses") l4 (by decide) (by decide))
        (by intro rest es h; simpa using h)
        hsi hts
        (decode_assembled parse6 name g salts si ts
          [(cl "ipv4_addresses", .arr ((l4.map display_ipv4).map Toml.str))]
          []
          (some l4) none hsalts
          (extract_addresses_ff_map parse_ipv4 display_ipv4 _ _ l4 hne4 rfl hrt4)
          rfl rfl
          (extract_u64_int_ofNat _ _ si hsi rfl)
          (extract_u64_int_ofNat _ _ ts hts rfl))
    | some l6 =>
      obtain ⟨hne6, hprop6⟩ := hi6 l6 rfl
      exact read_text_assembled parse6 name g salts si ts
        (SerializeToToml.serialize_ip_addresses display_ipv4 (cl "ipv4_addresses")
          (some l4))
        (SerializeToToml.serialize_ip_addresses disp6 (cl "ipv6_addresses") (some l6))
        ((cl "ipv4_addresses" ++ cl " = " ++ ['[']) ::
          ((l4.map display_ipv4).map (fun cnt => cl "    \"" ++ cnt ++ cl "\",")
            ++ [[']']]))
        ((cl "ipv6_addresses" ++ cl " = " ++ ['[']) ::
          ((l6.map disp6).map (fun cnt => cl "    \"" ++ cnt ++ cl "\",") ++ [[']']]))
        [(cl "ipv4_addresses", .arr ((l4.map display_ipv4).map Toml.str))]
        [(cl "ipv6_addresses", .arr ((l6.map disp6).map Toml.str))]
        _ hname hg
        (addr_seg_text display_ipv4 (cl "ipv4_addresses") l4)
        (addr_seg_text disp6 (cl "ipv6_addresses") l6)
        (addr_seg_nl display_ipv4 (cl "ipv4_addresses") l4 (by decide)
          (fun a _ => display_ipv4_no_nl a))
        (addr_seg_nl disp6 (cl "ipv6_addresses") l6 (by decide)
          (fun a ha => (hprop6 a ha).2))
        (addr_seg_cont display_ipv4 (cl "ipv4_addresses") l4 (by decide) (by decide))
        (addr_seg_cont disp6 (cl "ipv6_addresses") l6 (by decide) (by decide))
        hsi hts
        (decode_assembled parse6 name g salts si ts
          [(cl "ipv4_addresses", .arr ((l4.map display_ipv4).map Toml.str))]
          [(cl "ipv6_addresses", .arr ((l6.map disp6).map Toml.str))]
          (some l4) (some l6) hsalts
          (extract_addresses_ff_map parse_ipv4 display_ipv4 _ _ l4 hne4 rfl hrt4)
          (extract_addresses_ff_map parse6 disp6 _ _ l6 hne6 rfl
            (fun a ha => (hprop6 a ha).1))
          rfl
          (extract_u64_int_ofNat _ _ si hsi rfl)
          (extract_u64_int_ofNat _ _ ts hts rfl))

/-- C5 counterexample: a record whose `ipv4_addresses` is `Some` of an
empty list is serialized to a present-but-empty `ipv4_addresses = [...]`
block, and decoding that text yields the record with `ipv4_addresses =
None`: the round trip does not reproduce the record field-for-field for
every record of the Rust type, so a validity restriction (present address
lists nonempty, among others) is required. -/
theorem claim_C5_counterexample :
    SerializeToToml.serialize_collaborator_to_toml display_ipv4 (fun _ => [])
      { user_name := cl "a", user_salt_list := [1],
        ipv4_addresses := some [], ipv6_addresses := none,
        gpg_key_public := cl "k", sync_interval := 1, updated_at_timestamp := 2 }
      = .ok (cl "user_name = \"a\"\nuser_salt_list = [\n    \"0x1\",\n]\nipv4_addresses = [\n]\ngpg_key_public = \"k\"\nsync_interval = 1\nupdated_at_timestamp = 2\n")
    ∧ DeserializeOneFile.read_one_collaborator_setup_toml_text parse_ipv4
        (fun _ => none)
        (cl "user_name = \"a\"\nuser_salt_list = [\n    \"0x1\",\n]\nipv4_addresses = [\n]\ngpg_key_public = \"k\"\nsync_interval = 1\nupdated_at_timestamp = 2\n")
      = .ok { user_name := cl "a", user_salt_list := [1],
              ipv4_addresses := none, ipv6_addresses := none,
              gpg_key_public := cl "k", sync_interval := 1,
              updated_at_timestamp := 2 }
    ∧ ({ user_name := cl "a", user_salt_list := [1],
         ipv4_addresses := none, ipv6_addresses := none,
         gpg_key_public := cl "k", sync_interval := 1,
         updated_at_timestamp := 2 : CollaboratorTomlData }
       ≠ { user_name := cl "a", user_salt_list := [1],
           ipv4_addresses := some [], ipv6_addresses := none,
           gpg_key_public := cl "k", sync_interval := 1,
           updated_at_timestamp := 2 }) := by
  refine ⟨rfl, ?_, by decide⟩
  rfl

/-- C5 (amended): for every valid record — strings free of newlines and
quotes (the serializer's documented no-escaping limitation), salts below
2^128, the two u64 counters within the TOML engine's i64 range, and any
present address list nonempty, with in-range octets for IPv4 and a
display/parse-faithful, newline-free rendering for IPv6 — parsing the
output of `serialize_collaborator_to_toml` and decoding it with the
single-record field logic of `read_one_collaborator_setup_toml` reproduces
the record field-for-field, including the order of `user_salt_list`;
moreover salt decoding accepts hexadecimal digits of either case while the
encoder always emits the lowercase `"0x{:x}"` form. -/
theorem claim_C5_roundtrip
    (disp6 : Ipv6Addr → List Char) (parse6 : List Char → Option Ipv6Addr)
    (c : CollaboratorTomlData)
    (hname : '\n' ∉ c.user_name) (hnq : '"' ∉ c.user_name)
    (hg : '\n' ∉ c.gpg_key_public) (hgq : '"' ∉ c.gpg_key_public)
    (hsalts : ∀ v ∈ c.user_salt_list, v < u128_BOUND)
    (hsi : c.sync_interval < 2 ^ 63) (hts : c.updated_at_timestamp < 2 ^ 63)
    (hi4 : ∀ l, c.ipv4_addresses = some l → l ≠ [] ∧ ∀ a ∈ l,
      a.o0 ≤ 255 ∧ a.o1 ≤ 255 ∧ a.o2 ≤ 255 ∧ a.o3 ≤ 255)
    (hi6 : ∀ l, c.ipv6_addresses = some l → l ≠ [] ∧ ∀ a ∈ l,
      parse6 (disp6 a) = some a ∧ '\n' ∉ disp6 a) :
    (∀ s, SerializeToToml.serialize_collaborator_to_toml display_ipv4 disp6 c
        = .ok s →
      DeserializeOneFile.read_one_collaborator_setup_toml_text parse_ipv4 parse6 s
        = .ok c)
    ∧ (∀ v, v < u128_BOUND →
        parse_salt (.str (cl "0x" ++ fmt_lower_hex v)) = .ok v ∧
        parse_salt (.str (cl "0x" ++ fmt_upper_hex v)) = .ok v) := by
  constructor
  · intro s hs
    obtain ⟨name, salts, i4, i6, g, si, ts⟩ := c
    exact read_text_of_serialize disp6 parse6 name g salts i4 i6 si ts s
      hname hg hsalts hsi hts hi4 hi6 hs
  · intro v hv
    exact ⟨parse_salt_fmt_lower v hv, parse_salt_fmt_upper v hv⟩

/-- C5 witness: the round-trip theorem applied at a concrete record with
name `"a"`, salts `[0, 255]`, one IPv4 address `192.168.1.1`, no IPv6
addresses, key `"k"`, and counters `60` and `5`; every validity hypothesis
is discharged by evaluation. -/
theorem claim_C5_witness :
    (∀ s, SerializeToToml.serialize_collaborator_to_toml display_ipv4 (fun _ => [])
        { user_name := cl "a", user_salt_list := [0, 255],
          ipv4_addresses := some [⟨192, 168, 1, 1⟩], ipv6_addresses := none,
          gpg_key_public := cl "k", sync_interval := 60,
          updated_at_timestamp := 5 } = .ok s →
      DeserializeOneFile.read_one_collaborator_setup_toml_text parse_ipv4
        (fun _ => none) s
        = .ok { user_name := cl "a", user_salt_list := [0, 255],
                ipv4_addresses := some [⟨192, 168, 1, 1⟩], ipv6_addresses := none,
                gpg_key_public := cl "k", sync_interval := 60,
                updated_at_timestamp := 5 })
    ∧ (∀ v, v < u128_BOUND →
        parse_salt (.str (cl "0x" ++ fmt_lower_hex v)) = .ok v ∧
        parse_salt (.str (cl "0x" ++ fmt_upper_hex v)) = .ok v) :=
  claim_C5_roundtrip (fun _ => []) (fun _ => none)
    { user_name := cl "a", user_salt_list := [0, 255],
      ipv4_addresses := some [⟨192, 168, 1, 1⟩], ipv6_addresses := none,
      gpg_key_public := cl "k", sync_interval := 60, updated_at_timestamp := 5 }
    (by decide) (by decide) (by decide) (by decide)
    (by decide) (by decide) (by decide)
    (by intro l hl; cases hl; exact ⟨by decide, by decide⟩)
    (fun l hl => Option.noConfusion hl)
